import Mathlib

/-!
Verification development for the expense-tracker repository.

Shallow embedding conventions:
- Python `str` values are modelled as `String` / `List Char`; the character
  classes of `re` (`\d`, `\s`) and of `str.strip` are modelled at the ASCII
  level, which covers every input the specification and tests mention.
- Python `float` arithmetic is modelled with exact rationals (`ℚ`); the
  decimal literals produced by the parser and by JSON decoding are taken at
  their exact decimal value.  (The only divergence from IEEE doubles would
  require more than ~16 significant digits.)
- Python exceptions are modelled with `Except`/`Option`: a function that can
  raise returns `Except e α`, a function whose Python original catches every
  exception and returns normally is a total Lean function.
-/

namespace ExpenseTracker

/-! ## Character classes (ASCII model of Python's `\s`, `\d`, `str.strip`) -/

/-- ASCII model of the characters Python's `str.strip()` and `re` class
`\s` treat as whitespace. -/
def pyIsSpace (c : Char) : Bool :=
  c == ' ' || c == '\t' || c == '\n' || c == '\r' || c == '\x0b' || c == '\x0c'

/-- ASCII model of the `re` class `\d`. -/
def isDigitChar (c : Char) : Bool :=
  '0' ≤ c && c ≤ '9'

/-- Left part of Python `str.strip()`. -/
def stripLeft (s : List Char) : List Char :=
  s.dropWhile pyIsSpace

/-- Python `str.strip()`: remove leading and trailing whitespace. -/
def pyStrip (s : List Char) : List Char :=
  ((stripLeft s).reverse.dropWhile pyIsSpace).reverse

/-! ## The regex `^(\d+(?:[.,]\d+)?)\s+(.+)$` of `parse_expense_message`

`matchExpense` models `re.match` of that pattern against a string with no
trailing whitespace (the function is only applied to the already-stripped
message, so `$` means end of string).  Backtracking analysis: the greedy
maximal-munch choice of every quantifier is the only candidate, because a
digit never satisfies `[.,]` or `\s`, a separator never satisfies `\s`, and
`.` never matches a newline, so the match is computed deterministically.
The captured group 2 is the remainder after the maximal whitespace run; it
matches `$` exactly when it is non-empty and contains no newline. -/

/-- Deterministic model of `re.match(r'^(\d+(?:[.,]\d+)?)\s+(.+)$', s)` for a
string `s` with no trailing whitespace; returns `(amount_str, category)`. -/
def matchExpense (s : List Char) : Option (List Char × List Char) :=
  let intDs := s.takeWhile isDigitChar
  let r1 := s.dropWhile isDigitChar
  if intDs.isEmpty then none
  else
    let p :=
      match r1 with
      | c :: cs =>
        if (c == '.' || c == ',') && !(cs.takeWhile isDigitChar).isEmpty then
          (intDs ++ c :: cs.takeWhile isDigitChar, cs.dropWhile isDigitChar)
        else (intDs, r1)
      | [] => (intDs, r1)
    let ws := p.2.takeWhile pyIsSpace
    let r3 := p.2.dropWhile pyIsSpace
    if ws.isEmpty then none
    else if r3.isEmpty then none
    else if r3.any (fun c => c == '\n') then none
    else some (p.1, r3)

/-! ## Computable rational arithmetic

The `Rat.add`/`Rat.mul` operations behind `+`/`*` on `ℚ` are irreducible,
which blocks kernel evaluation of concrete runs.  The embedding therefore
computes with `Rat.divInt`-based equivalents `qAdd`/`qMul`, proved equal to
`+`/`*` below, and the theorems are stated with the ordinary operations. -/

/-- Kernel-reducible addition on `ℚ`, equal to `+` (see `qAdd_eq_add`). -/
def qAdd (a b : ℚ) : ℚ :=
  Rat.divInt (a.num * (b.den : ℤ) + b.num * (a.den : ℤ)) ((a.den : ℤ) * (b.den : ℤ))

/-- Kernel-reducible multiplication on `ℚ`, equal to `*` (see `qMul_eq_mul`). -/
def qMul (a b : ℚ) : ℚ :=
  Rat.divInt (a.num * b.num) ((a.den : ℤ) * (b.den : ℤ))

/-! ## Python `float()` on strings (exact-rational model) -/

/-- Numeric value of a digit string (most significant digit first). -/
def digitsVal (ds : List Char) : Nat :=
  ds.foldl (fun a c => 10 * a + (c.toNat - 48)) 0

/-- Exact value of the decimal literal `intDs.fracDs`, as a single
reduced fraction. -/
def decimalValue (intDs fracDs : List Char) : ℚ :=
  Rat.divInt (Int.ofNat (digitsVal intDs * 10 ^ fracDs.length + digitsVal fracDs))
    (Int.ofNat (10 ^ fracDs.length))

/-- Exponent-suffix digits of a Python float literal. -/
def expDigits (v : ℚ) (ds : List Char) (pos : Bool) : Option ℚ :=
  if ds.isEmpty || !(ds.all isDigitChar) then none
  else some (if pos then qMul v (Rat.divInt (Int.ofNat (10 ^ digitsVal ds)) 1)
             else qMul v (Rat.divInt 1 (Int.ofNat (10 ^ digitsVal ds))))

/-- Optional exponent suffix (`e`/`E`, optional sign, digits) after a
mantissa of value `v`. -/
def pyFloatExp (v : ℚ) (r : List Char) : Option ℚ :=
  match r with
  | [] => some v
  | c :: cs =>
    if c == 'e' || c == 'E' then
      match cs with
      | '+' :: ds => expDigits v ds true
      | '-' :: ds => expDigits v ds false
      | ds => expDigits v ds true
    else none

/-- Unsigned mantissa of a Python float literal: `digits`, `digits.digits`,
`digits.` or `.digits`, then an optional exponent. -/
def pyFloatCore (s : List Char) : Option ℚ :=
  let intDs := s.takeWhile isDigitChar
  let r1 := s.dropWhile isDigitChar
  match r1 with
  | '.' :: r2 =>
    let fracDs := r2.takeWhile isDigitChar
    let r3 := r2.dropWhile isDigitChar
    if intDs.isEmpty && fracDs.isEmpty then none
    else pyFloatExp (decimalValue intDs fracDs) r3
  | _ => if intDs.isEmpty then none else pyFloatExp (decimalValue intDs []) r1

/-- Kernel-reducible negation on `ℚ`, equal to `Neg.neg` (see `qNeg_eq_neg`). -/
def qNeg (q : ℚ) : ℚ :=
  Rat.divInt (-q.num) (q.den : ℤ)

/-- Optional sign in front of the mantissa. -/
def pyFloatSigned (s : List Char) : Option ℚ :=
  match s with
  | [] => pyFloatCore []
  | c :: r =>
    if c == '+' then pyFloatCore r
    else if c == '-' then (pyFloatCore r).map qNeg
    else pyFloatCore (c :: r)

/-- Model of Python `float(s)` on a string, at exact rational value.
The `inf`/`nan` literals and underscore separators of CPython are not
representable here and are not reachable from this repository's call sites. -/
def pyFloat (s : List Char) : Option ℚ :=
  pyFloatSigned (pyStrip s)

/-- `str.replace(',', '.')`. -/
def replaceComma (s : List Char) : List Char :=
  s.map (fun c => if c == ',' then '.' else c)

/-! ## `bot/utils.py : parse_expense_message`

The error strings keep the text of the source; the leading `❌ ` emoji
marker of each message is rendered as the plain marker text `[X] `. -/

def emptyMsg : String := "[X] Message is empty."

def formatMsg : String :=
  "[X] Invalid format. Please use: `amount category` (e.g., `6.60 food`)"

def amountMsg : String := "[X] Invalid amount. Please enter a valid number."

def nonPositiveMsg : String := "[X] Amount must be greater than 0."

def tooHighMsg : String := "[X] Amount seems too high. Please check and try again."

def missingCategoryMsg : String := "[X] Please provide a description for your expense."

def tooLongMsg : String :=
  "[X] Description is too long. Please keep it under 100 characters."

/-- Return value of `parse_expense_message`: the tuple
`(amount, category, error_message)`. -/
structure ParsedExpense where
  amount : Option ℚ
  category : Option String
  error : String
deriving DecidableEq, Repr

/-- Embedding of `bot/utils.py : parse_expense_message`.  The body of the
Python function cannot raise, so its outer `try/except` wrapper is inert. -/
def parse_expense_message (message : String) : ParsedExpense :=
  let m := pyStrip message.toList
  if m.isEmpty then ⟨none, none, emptyMsg⟩
  else
    match matchExpense m with
    | none => ⟨none, none, formatMsg⟩
    | some (amountStr, catStr) =>
      match pyFloat (replaceComma amountStr) with
      | none => ⟨none, none, amountMsg⟩
      | some amount =>
        if amount ≤ 0 then ⟨none, none, nonPositiveMsg⟩
        else if amount > 1000000 then ⟨none, none, tooHighMsg⟩
        else
          let category := pyStrip catStr
          if category.isEmpty then ⟨none, none, missingCategoryMsg⟩
          else if category.length > 100 then ⟨none, none, tooLongMsg⟩
          else ⟨some amount, some (String.mk category), ""⟩

/-- The separator-and-fraction part of a canonical matched message:
nothing, or a separator character followed by fraction digits. -/
def sepPart : Option (Char × List Char) → List Char
  | none => []
  | some (c, fr) => c :: fr

/-- The fraction digits of a canonical matched message. -/
def fracOf : Option (Char × List Char) → List Char
  | none => []
  | some (_, fr) => fr

/-- Well-formedness of the separator-and-fraction part: absent, or a dot or
comma followed by at least one digit. -/
def sepOk : Option (Char × List Char) → Prop
  | none => True
  | some (c, fr) => (c = '.' ∨ c = ',') ∧ fr ≠ [] ∧ ∀ d ∈ fr, isDigitChar d = true

instance instDecSepOk : (o : Option (Char × List Char)) → Decidable (sepOk o)
  | none => isTrue trivial
  | some (c, fr) =>
    inferInstanceAs (Decidable ((c = '.' ∨ c = ',') ∧ fr ≠ [] ∧ ∀ d ∈ fr, isDigitChar d = true))

instance instDecOptionChar {p : Char → Prop} [DecidablePred p] (o : Option Char) :
    Decidable (∀ c, o = some c → p c) :=
  match o with
  | none => isTrue (fun c h => by cases h)
  | some x =>
    decidable_of_iff (p x)
      ⟨fun hp c hc => by cases hc; exact hp, fun h => h x rfl⟩

/-! ## JSON values and `json.loads`

Model of the Python `json` module as used by this repository.  Notes on
fidelity: `json.loads` additionally accepts the non-finite literals
`NaN`/`Infinity`/`-Infinity` (not representable in `ℚ` and never produced
by the call sites modelled here), combines `\uXXXX` surrogate pairs, and
distinguishes `int` from `float` values; none of these corners is reachable
from the claims under verification. -/

inductive JsonV where
  | null
  | bool (b : Bool)
  | num (q : ℚ)
  | str (s : String)
  | arr (elems : List JsonV)
  | obj (fields : List (String × JsonV))

/-- The brace characters, named to keep them out of literals. -/
def lbrace : Char := Char.ofNat 123

def rbrace : Char := Char.ofNat 125

/-- JSON insignificant whitespace. -/
def jIsWs (c : Char) : Bool :=
  c == ' ' || c == '\t' || c == '\n' || c == '\r'

def jSkipWs (s : List Char) : List Char :=
  s.dropWhile jIsWs

/-- Hex digit value. -/
def hexVal (c : Char) : Option Nat :=
  if '0' ≤ c && c ≤ '9' then some (c.toNat - 48)
  else if 'a' ≤ c && c ≤ 'f' then some (c.toNat - 87)
  else if 'A' ≤ c && c ≤ 'F' then some (c.toNat - 55)
  else none

/-- JSON string body after the opening quote: ordinary characters, the
standard escapes, `\uXXXX` (lone surrogate halves fall back to `\0` via
`Char.ofNat`, a corner no claim reaches), raw control characters rejected
as in strict mode. -/
def jString (fuel : Nat) (s : List Char) (acc : List Char) :
    Option (String × List Char) :=
  match fuel, s with
  | 0, _ => none
  | _, [] => none
  | f + 1, c :: r =>
    if c == '"' then some (String.mk acc.reverse, r)
    else if c == '\\' then
      match r with
      | [] => none
      | e :: r2 =>
        if e == '"' then jString f r2 ('"' :: acc)
        else if e == '\\' then jString f r2 ('\\' :: acc)
        else if e == '/' then jString f r2 ('/' :: acc)
        else if e == 'b' then jString f r2 ('\x08' :: acc)
        else if e == 'f' then jString f r2 ('\x0c' :: acc)
        else if e == 'n' then jString f r2 ('\n' :: acc)
        else if e == 'r' then jString f r2 ('\r' :: acc)
        else if e == 't' then jString f r2 ('\t' :: acc)
        else if e == 'u' then
          match r2 with
          | h1 :: h2 :: h3 :: h4 :: r3 =>
            match hexVal h1, hexVal h2, hexVal h3, hexVal h4 with
            | some a, some b, some c2, some d =>
              jString f r3 (Char.ofNat (((a * 16 + b) * 16 + c2) * 16 + d) :: acc)
            | _, _, _, _ => none
          | _ => none
        else none
    else if c.toNat < 32 then none
    else jString f r (c :: acc)

/-- Scale a rational by `10 ^ e` up or down (kernel-reducible). -/
def applyExp (v : ℚ) (pos : Bool) (e : Nat) : ℚ :=
  if pos then qMul v (Rat.divInt (Int.ofNat (10 ^ e)) 1)
  else qMul v (Rat.divInt 1 (Int.ofNat (10 ^ e)))

/-- Optional JSON exponent suffix applied to mantissa `v`. -/
def jNumExp (v : ℚ) (rest : List Char) : Option (ℚ × List Char) :=
  match rest with
  | c :: r =>
    if c == 'e' || c == 'E' then
      let p :=
        match r with
        | '+' :: r2 => (true, r2)
        | '-' :: r2 => (false, r2)
        | r2 => (true, r2)
      let expDs := p.2.takeWhile isDigitChar
      if expDs.isEmpty then none
      else some (applyExp v p.1 (digitsVal expDs), p.2.dropWhile isDigitChar)
    else some (v, c :: r)
  | [] => some (v, [])

/-- JSON number grammar: `-? (0 | [1-9][0-9]*) (.[0-9]+)? ([eE][+-]?[0-9]+)?`. -/
def jNumber (s : List Char) : Option (ℚ × List Char) :=
  let p :=
    match s with
    | '-' :: r => (true, r)
    | r => (false, r)
  let intDs := p.2.takeWhile isDigitChar
  let r1 := p.2.dropWhile isDigitChar
  if intDs.isEmpty then none
  else if intDs.length > 1 && intDs.headD '0' == '0' then none
  else
    let afterFrac :=
      match r1 with
      | '.' :: r2 =>
        let fracDs := r2.takeWhile isDigitChar
        if fracDs.isEmpty then none
        else some (decimalValue intDs fracDs, r2.dropWhile isDigitChar)
      | _ => some (decimalValue intDs [], r1)
    match afterFrac with
    | none => none
    | some (v, r3) =>
      match jNumExp v r3 with
      | none => none
      | some (v2, r4) => some ((if p.1 then qNeg v2 else v2), r4)

/-- Parsing mode of the single-function JSON parser: a plain value, or the
continuation inside an array or object with the elements read so far. -/
inductive JMode where
  | value
  | arrHead (acc : List JsonV)
  | arrTail (acc : List JsonV)
  | objHead (acc : List (String × JsonV))
  | objTail (acc : List (String × JsonV))

/-- Fuel-indexed JSON parser (structural recursion on the fuel so that the
kernel can evaluate it on concrete inputs). -/
def jRun (fuel : Nat) (mode : JMode) (s : List Char) : Option (JsonV × List Char) :=
  match fuel with
  | 0 => none
  | f + 1 =>
    match mode with
    | .value =>
      match jSkipWs s with
      | [] => none
      | c :: r =>
        if c == lbrace then
          match jSkipWs r with
          | c2 :: r2 =>
            if c2 == rbrace then some (.obj [], r2)
            else jRun f (.objHead []) (c2 :: r2)
          | [] => none
        else if c == '[' then
          match jSkipWs r with
          | ']' :: r2 => some (.arr [], r2)
          | r2 => jRun f (.arrHead []) r2
        else if c == '"' then
          match jString (r.length + 1) r [] with
          | some (st, r2) => some (.str st, r2)
          | none => none
        else if c == 't' then
          match r with
          | 'r' :: 'u' :: 'e' :: r2 => some (.bool true, r2)
          | _ => none
        else if c == 'f' then
          match r with
          | 'a' :: 'l' :: 's' :: 'e' :: r2 => some (.bool false, r2)
          | _ => none
        else if c == 'n' then
          match r with
          | 'u' :: 'l' :: 'l' :: r2 => some (.null, r2)
          | _ => none
        else
          match jNumber (c :: r) with
          | some (q, r2) => some (.num q, r2)
          | none => none
    | .arrHead acc =>
      match jRun f .value s with
      | some (v, r) => jRun f (.arrTail (v :: acc)) r
      | none => none
    | .arrTail acc =>
      match jSkipWs s with
      | ']' :: r => some (.arr acc.reverse, r)
      | ',' :: r => jRun f (.arrHead acc) r
      | _ => none
    | .objHead acc =>
      match jSkipWs s with
      | '"' :: r =>
        match jString (r.length + 1) r [] with
        | some (k, r2) =>
          match jSkipWs r2 with
          | ':' :: r3 =>
            match jRun f .value r3 with
            | some (v, r4) => jRun f (.objTail ((k, v) :: acc)) r4
            | none => none
          | _ => none
        | none => none
      | _ => none
    | .objTail acc =>
      match jSkipWs s with
      | c :: r =>
        if c == rbrace then some (.obj acc.reverse, r)
        else if c == ',' then jRun f (.objHead acc) r
        else none
      | [] => none

/-- Model of `json.loads`: parse one value, reject trailing data. -/
def jsonParse (s : List Char) : Option JsonV :=
  match jRun (4 * s.length + 16) .value s with
  | some (v, rest) => if (jSkipWs rest).isEmpty then some v else none
  | none => none

/-! ## Python dict surface of the parsed JSON -/

/-- `dict.get(key)`: Python dicts keep the last of duplicate JSON keys. -/
def objGetOpt (fields : List (String × JsonV)) (key : String) : Option JsonV :=
  (fields.reverse.find? (fun kv => kv.1 == key)).map (fun kv => kv.2)

/-- `dict.get(key, dflt)`. -/
def objGet (fields : List (String × JsonV)) (key : String) (dflt : JsonV) : JsonV :=
  (objGetOpt fields key).getD dflt

/-- Python truthiness of a `dict.get(key)` result. -/
def pyTruthy (v : Option JsonV) : Bool :=
  match v with
  | none => false
  | some .null => false
  | some (.bool b) => b
  | some (.num q) => !(q.num == 0)
  | some (.str s) => !s.isEmpty
  | some (.arr xs) => !xs.isEmpty
  | some (.obj fs) => !fs.isEmpty

/-- Model of `str(v)` as used in f-strings building error messages.  The
`.str` case (the only one any claim depends on) is exact; numeric and
container renderings are approximations of the CPython `repr`. -/
def pyStrOfJson : JsonV → String
  | .null => "None"
  | .bool b => if b then "True" else "False"
  | .num q => if q.den == 1 then toString q.num else toString q.num ++ "/" ++ toString q.den
  | .str s => s
  | .arr _ => "<list>"
  | .obj _ => "<dict>"

/-- Python `int(s)` on a string: optional whitespace and sign, digits only. -/
def pyIntOfString (s : List Char) : Option Int :=
  let t := pyStrip s
  match t with
  | [] => none
  | c :: ds =>
    if c == '+' then
      if !ds.isEmpty && ds.all isDigitChar then some (Int.ofNat (digitsVal ds)) else none
    else if c == '-' then
      if !ds.isEmpty && ds.all isDigitChar then some (-(Int.ofNat (digitsVal ds))) else none
    else if (c :: ds).all isDigitChar then some (Int.ofNat (digitsVal (c :: ds)))
    else none

/-- Python `float(x)` on a value decoded from JSON. -/
def pyFloatOfJson : JsonV → Option ℚ
  | .num q => some q
  | .str s => pyFloat s.toList
  | .bool b => some (if b then 1 else 0)
  | _ => none

/-- Python `int(x)` on a value decoded from JSON (floats truncate toward
zero). -/
def pyIntOfJson : JsonV → Option Int
  | .num q => some (q.num.tdiv (q.den : ℤ))
  | .str s => pyIntOfString s.toList
  | .bool b => some (if b then 1 else 0)
  | _ => none

/-! ## `bot/ai_analysis.py`: data model of the staged analyzer

`ExpenseCategory.name`, `.descriptions` and `.patterns` keep the raw
decoded JSON value, exactly as the dynamically-typed Python dataclass
stores whatever `dict.get` returned (the defaults are `"Unknown"` and
`[]`). -/

structure ExpenseCategory where
  name : JsonV
  total_amount : ℚ
  count : Int
  descriptions : JsonV
  patterns : JsonV

structure AnalysisResult where
  period : String
  total_expenses : ℚ
  total_transactions : Int
  categories : List ExpenseCategory
  insights : JsonV
  recommendations : JsonV
  analysis_date : String

/-- The distinct exceptions `_parse_categorization_response` can raise:
`ValueError("No JSON found in response")`, `json.JSONDecodeError`, and a
coercion failure (`float()`/`int()` on a bad field, or iterating a
non-list `categories` value). -/
inductive CatParseError where
  | noStructuredResponse
  | malformedResponse
  | badFieldValue
deriving DecidableEq

/-- `str.find(c)`: index of first occurrence. -/
def strFind (s : List Char) (c : Char) : Option Nat :=
  s.findIdx? (fun x => x == c)

/-- `str.rfind(c)`: index of last occurrence. -/
def strRfind (s : List Char) (c : Char) : Option Nat :=
  (s.reverse.findIdx? (fun x => x == c)).map (fun i => s.length - 1 - i)

/-- Python slice `s[a:b]` (empty when `a ≥ b`). -/
def pySlice (s : List Char) (a b : Nat) : List Char :=
  (s.drop a).take (b - a)

/-- The brace-search JSON location shared by all three stage parsers:
`response[response.find(lbrace) : response.rfind(rbrace) + 1]`, `none`
when either brace is absent. -/
def extractJsonSubstring (response : List Char) : Option (List Char) :=
  match strFind response lbrace, strRfind response rbrace with
  | some i, some j => some (pySlice response i (j + 1))
  | _, _ => none

/-- One entry of the stage-1 `categories` array; a non-dict entry or a bad
numeric field raises. -/
def parseCategoryEntry (v : JsonV) : Except CatParseError ExpenseCategory :=
  match v with
  | .obj fields =>
    match pyFloatOfJson (objGet fields "total_amount" (.num 0)),
        pyIntOfJson (objGet fields "count" (.num 0)) with
    | some ta, some cnt =>
      .ok { name := objGet fields "name" (.str "Unknown")
            total_amount := ta
            count := cnt
            descriptions := objGet fields "descriptions" (.arr [])
            patterns := objGet fields "patterns" (.arr []) }
    | _, _ => .error .badFieldValue
  | _ => .error .badFieldValue

/-- The `data.get('categories', [])` loop source; iterating a non-list
value raises (the degenerate iterable cases, an empty string or empty
dict, are not reachable from any claim). -/
def getCategoriesList (data : JsonV) : Option (List JsonV) :=
  match data with
  | .obj fields =>
    match objGetOpt fields "categories" with
    | none => some []
    | some (.arr xs) => some xs
    | some _ => none
  | _ => none

/-- Embedding of `MistralAnalyzer._parse_categorization_response`. -/
def parse_categorization_response (response : List Char) :
    Except CatParseError (List ExpenseCategory) :=
  match extractJsonSubstring response with
  | none => .error .noStructuredResponse
  | some js =>
    match jsonParse js with
    | none => .error .malformedResponse
    | some data =>
      match getCategoriesList data with
      | none => .error .badFieldValue
      | some entries => entries.mapM parseCategoryEntry

/-- Embedding of `MistralAnalyzer._extract_patterns_from_response`: any
failure (no braces, bad JSON, non-dict value — the latter raises and is
caught) degrades to the empty list. -/
def extract_patterns_from_response (response : List Char) : JsonV :=
  match extractJsonSubstring response with
  | none => .arr []
  | some js =>
    match jsonParse js with
    | some (.obj fields) => objGet fields "patterns" (.arr [])
    | _ => .arr []

/-- Embedding of `MistralAnalyzer._parse_insights_response`: the pair
`(insights, recommendations)`, degrading to `([], [])` on any failure. -/
def parse_insights_response (response : List Char) : JsonV × JsonV :=
  match extractJsonSubstring response with
  | none => (.arr [], .arr [])
  | some js =>
    match jsonParse js with
    | some (.obj fields) =>
      (objGet fields "insights" (.arr []), objGet fields "recommendations" (.arr []))
    | _ => (.arr [], .arr [])

/-- Embedding of `MistralAnalyzer._analyze_patterns_flow`, instrumented:
also returns the list of categories for which a model call was issued.
`resp` gives the model's response text to the pattern prompt of a
category (the prompt is a function of the category, so the response is
modelled as one), or the exception `_get_ai_response` raised. -/
def analyze_patterns_flow_aux (resp : ExpenseCategory → Except String (List Char)) :
    List ExpenseCategory → Except String (List ExpenseCategory × List ExpenseCategory)
  | [] => .ok ([], [])
  | c :: rest =>
    if c.count > 1 then
      match resp c with
      | .error e => .error e
      | .ok text =>
        match analyze_patterns_flow_aux resp rest with
        | .error e => .error e
        | .ok (cs, calls) =>
          .ok ({ c with patterns := extract_patterns_from_response text } :: cs, c :: calls)
    else
      match analyze_patterns_flow_aux resp rest with
      | .error e => .error e
      | .ok (cs, calls) => .ok (c :: cs, calls)

/-- `_analyze_patterns_flow` itself: the updated category list. -/
def analyze_patterns_flow (resp : ExpenseCategory → Except String (List Char))
    (cats : List ExpenseCategory) : Except String (List ExpenseCategory) :=
  (analyze_patterns_flow_aux resp cats).map (fun p => p.1)

/-- One row of the expense frame handed to the analyzer. -/
structure ExpenseRow where
  amount : ℚ
  description : String

/-- Environment of one `analyze_expenses` run: the outcome of data
extraction (network fetch plus sample-data fallback, abstracted as a
whole — no claim targets its internals), and the model responses of the
three stages, each either text or the exception the model call raised. -/
structure AnalyzerEnv where
  extractedData : Except String (List ExpenseRow)
  catResponse : Except String (List Char)
  patternResponse : ExpenseCategory → Except String (List Char)
  insightsResponse : Except String (List Char)
  now : String

/-- The distinct exceptions `analyze_expenses` can propagate. -/
inductive AnalysisError where
  | dataError (msg : String)
  | emptyData (period : String)
  | aiError (msg : String)
  | catParse (e : CatParseError)

/-- Embedding of `MistralAnalyzer._categorize_expenses_flow` (stage 1). -/
def categorize_expenses_flow (env : AnalyzerEnv) :
    Except AnalysisError (List ExpenseCategory) :=
  match env.catResponse with
  | .error e => .error (.aiError e)
  | .ok text =>
    match parse_categorization_response text with
    | .error e => .error (.catParse e)
    | .ok cats => .ok cats

/-- Embedding of `MistralAnalyzer._generate_insights_flow` (stage 3); its
category/total arguments only feed the prompt, which the environment
abstracts. -/
def generate_insights_flow (env : AnalyzerEnv) : Except AnalysisError (JsonV × JsonV) :=
  match env.insightsResponse with
  | .error e => .error (.aiError e)
  | .ok text => .ok (parse_insights_response text)

/-- Embedding of `MistralAnalyzer.analyze_expenses`: the staged pipeline.
Every stage failure is logged and re-raised by the Python code, so it
propagates out of `analyze_expenses` (modelled as `.error`). -/
def analyze_expenses (env : AnalyzerEnv) (period : String) :
    Except AnalysisError AnalysisResult :=
  match env.extractedData with
  | .error e => .error (.dataError e)
  | .ok rows =>
    if rows.isEmpty then .error (.emptyData period)
    else
      match categorize_expenses_flow env with
      | .error e => .error e
      | .ok categories =>
        match analyze_patterns_flow env.patternResponse categories with
        | .error e => .error (.aiError e)
        | .ok categories2 =>
          let total_amount := categories2.foldl (fun a c => qAdd a c.total_amount) 0
          let total_count := categories2.foldl (fun a c => a + c.count) 0
          match generate_insights_flow env with
          | .error e => .error e
          | .ok p =>
            .ok { period := period
                  total_expenses := total_amount
                  total_transactions := total_count
                  categories := categories2
                  insights := p.1
                  recommendations := p.2
                  analysis_date := env.now }

/-! ## `sheets/client.py`: the HTTP ledger client

The behaviour of `requests.post` is the input: either a raised
`RequestException` or a response with a status code and a body. -/

inductive HttpOutcome where
  | exc (msg : String)
  | resp (status : Nat) (body : String)

/-- Return dict of `SimpleSheetsClient.log_expense`: the values of the
keys `success`, `message`, `running_total` (the latter two hold whatever
dynamic value the code put there). -/
structure LogResult where
  success : Bool
  message : JsonV
  running_total : JsonV

/-- Embedding of `SimpleSheetsClient.log_expense`.  The branches mirror
the source: network exception, non-200 status, 200 with truthy
`success`, 200 with falsy `success`; a body that fails `response.json()`
or is not a dict raises and is caught by the generic handler (its
`str(e)` text approximated by a fixed message). -/
def log_expense (amount : ℚ) (category : String) (outcome : HttpOutcome) : LogResult :=
  match outcome with
  | .exc e =>
    { success := false
      message := .str ("Request failed: " ++ e)
      running_total := .num 0 }
  | .resp status body =>
    if status == 200 then
      match jsonParse body.toList with
      | some (.obj fields) =>
        if pyTruthy (objGetOpt fields "success") then
          { success := true
            message := objGet fields "message" (.str "Expense logged successfully")
            running_total := objGet fields "runningTotal" (.num 0) }
        else
          { success := false
            message := .str ("Apps Script error: " ++
              pyStrOfJson (objGet fields "error" (.str "Unknown error")))
            running_total := .num 0 }
      | _ =>
        { success := false
          message := .str "Unexpected error: bad response body"
          running_total := .num 0 }
    else
      { success := false
        message := .str ("HTTP error " ++ toString status)
        running_total := .num 0 }

/-- Embedding of `SimpleSheetsClient.call_apps_script_function`: returns
the backend's decoded dict verbatim on any 200 dict response (both the
truthy- and falsy-`success` branches return `result`), and a
client-constructed failure dict for the other layers. -/
def call_apps_script_function (function_name : String)
    (params : List (String × JsonV)) (outcome : HttpOutcome) : JsonV :=
  match outcome with
  | .exc e =>
    .obj [("success", .bool false), ("message", .str ("Request failed: " ++ e))]
  | .resp status body =>
    if status == 200 then
      match jsonParse body.toList with
      | some (.obj fields) => .obj fields
      | _ => .obj [("success", .bool false), ("message", .str "Unexpected error: bad response body")]
    else
      .obj [("success", .bool false), ("message", .str ("HTTP error " ++ toString status))]

/-! ## `sheets/operations.py : SheetOperations.log_expense` -/

/-- Exact-rational model of the f-string format `:.2f`: round to two
fractional digits (half-to-even, as CPython formatting rounds) and
render.  Renders the exact rational where a double would first lose
precision — a corner no claim inspects. -/
def fmtRat2 (q : ℚ) : String :=
  let m : ℤ := q.num * 100
  let d : ℤ := (q.den : ℤ)
  let qt : ℤ := Int.fdiv m d
  let r2 : ℤ := 2 * (m - qt * d)
  let n : ℤ := if r2 > d || (r2 == d && qt % 2 == 1) then qt + 1 else qt
  let sign := if n < 0 then "-" else ""
  sign ++ toString (n.natAbs / 100) ++ "." ++
    (if n.natAbs % 100 < 10 then "0" else "") ++ toString (n.natAbs % 100)

/-- The f-string `\x7bv:.2f\x7d` on a dynamic value: numbers (and bools,
which format as ints) succeed, anything else raises. -/
def format2f (v : JsonV) : Option String :=
  match v with
  | .num q => some (fmtRat2 q)
  | .bool b => some (if b then "1.00" else "0.00")
  | _ => none

/-- Embedding of `SheetOperations.log_expense`: the `(success, message,
running_total)` tuple.  The success message formats the backend running
total with `:.2f`; when that value is not numeric the format raises and
the outer handler returns the failure tuple.  The leading status emoji
of each message is omitted as in the parser messages. -/
def sheet_log_expense (amount : ℚ) (category : String) (outcome : HttpOutcome) :
    Bool × String × JsonV :=
  let result := log_expense amount category outcome
  if result.success then
    match format2f result.running_total with
    | some totStr =>
      (true, "Logged $" ++ fmtRat2 amount ++ " for " ++ category ++
        ". Running total: $" ++ totStr, result.running_total)
    | none => (false, "Error logging expense: unsupported format string", .num 0)
  else
    (false, "Failed to log expense: " ++ pyStrOfJson result.message, .num 0)

/-! ## Concrete fixtures used by witnesses and counterexamples -/

/-- A model response whose brace-delimited substring (when present) is not
valid JSON — the "non-JSON text" condition of the spec. -/
def nonJsonResponse (t : List Char) : Prop :=
  match extractJsonSubstring t with
  | none => True
  | some js => jsonParse js = none

/-- Sample expense rows for concrete analyzer runs. -/
def rowsSample : List ExpenseRow :=
  [{ amount := Rat.divInt 25 2, description := "coffee" }]

/-- A stage-1 response with two categories, counts 2 and 1. -/
def catRespTwo : List Char :=
  ("\x7b\"categories\":[\x7b\"name\":\"Food\",\"total_amount\":12.5,\"count\":2," ++
   "\"descriptions\":[\"coffee\",\"tea\"],\"patterns\":[]\x7d," ++
   "\x7b\"name\":\"Gas\",\"total_amount\":3,\"count\":1," ++
   "\"descriptions\":[\"gas\"],\"patterns\":[]\x7d]\x7d").toList

/-- A well-formed stage-2 response. -/
def goodPatternResp : List Char :=
  "\x7b\"patterns\":[\"often\"]\x7d".toList

/-- A well-formed stage-3 response. -/
def goodInsightsResp : List Char :=
  "\x7b\"insights\":[\"i1\"],\"recommendations\":[\"r1\"]\x7d".toList

/-- An environment in which every stage succeeds. -/
def envOk : AnalyzerEnv :=
  { extractedData := .ok rowsSample
    catResponse := .ok catRespTwo
    patternResponse := fun _ => .ok goodPatternResp
    insightsResponse := .ok goodInsightsResp
    now := "2024-01-01 00:00:00" }

/-- `envOk` with a stage-3 response carrying no parseable JSON. -/
def envInsightsFail : AnalyzerEnv :=
  { envOk with insightsResponse := .ok "no structured text".toList }

/-- `envOk` with failing data extraction. -/
def envDataFail : AnalyzerEnv :=
  { envOk with extractedData := .error "boom" }

/-- The analysis result of the `envOk` run. -/
def resOk : AnalysisResult :=
  { period := "monthly"
    total_expenses := Rat.divInt 31 2
    total_transactions := 3
    categories :=
      [{ name := .str "Food", total_amount := Rat.divInt 25 2, count := 2,
         descriptions := .arr [.str "coffee", .str "tea"],
         patterns := .arr [.str "often"] },
       { name := .str "Gas", total_amount := Rat.divInt 3 1, count := 1,
         descriptions := .arr [.str "gas"], patterns := .arr [] }]
    insights := .arr [.str "i1"]
    recommendations := .arr [.str "r1"]
    analysis_date := "2024-01-01 00:00:00" }

/-- The analysis result of the `envInsightsFail` run. -/
def resInsightsFail : AnalysisResult :=
  { resOk with insights := .arr [], recommendations := .arr [] }

/-- A single-transaction category that reached stage 2 with a non-empty
stage-1 patterns list (the stage-1 model filled the field). -/
def catC6 : ExpenseCategory :=
  { name := .str "A", total_amount := Rat.divInt 1 1, count := 1,
    descriptions := .arr [], patterns := .arr [.str "leftover"] }

/-- A two-transaction category (stage 2 calls the model for it). -/
def catTwo : ExpenseCategory :=
  { name := .str "B", total_amount := Rat.divInt 5 1, count := 2,
    descriptions := .arr [.str "x", .str "y"], patterns := .arr [] }

/-- A three-transaction category. -/
def catThree : ExpenseCategory :=
  { name := .str "C", total_amount := Rat.divInt 9 1, count := 3,
    descriptions := .arr [.str "z"], patterns := .arr [] }

/-- A 200-response body with truthy success and a running total of 7.5. -/
def c7body : String :=
  "\x7b\"success\":true,\"runningTotal\":7.5,\"message\":\"ok\"\x7d"

/-- A 200-response body whose application-level failure message mimics the
client's own network-failure message. -/
def c8body : String :=
  "\x7b\"success\":false,\"message\":\"Request failed: boom\"\x7d"

/-! # Theorems

General toolkit lemmas first, then one theorem per claim with its
witness or counterexample. -/

theorem qAdd_eq_add (a b : ℚ) : qAdd a b = a + b := by
  rw [qAdd]
  conv_rhs => rw [← Rat.num_divInt_den a, ← Rat.num_divInt_den b]
  rw [Rat.divInt_add_divInt _ _ (by exact_mod_cast a.den_nz) (by exact_mod_cast b.den_nz)]

theorem qMul_eq_mul (a b : ℚ) : qMul a b = a * b := by
  rw [qMul]
  conv_rhs => rw [← Rat.num_divInt_den a, ← Rat.num_divInt_den b]
  rw [Rat.divInt_mul_divInt _ _ (by exact_mod_cast a.den_nz) (by exact_mod_cast b.den_nz)]

/-- `decimalValue` is the usual value of the decimal literal. -/
theorem decimalValue_eq (intDs fracDs : List Char) :
    decimalValue intDs fracDs =
      (digitsVal intDs : ℚ) + (digitsVal fracDs : ℚ) / (10 : ℚ) ^ fracDs.length := by
  rw [decimalValue, Rat.divInt_eq_div]
  have h10 : ((10 : ℚ) ^ fracDs.length) ≠ 0 := by positivity
  field_simp

theorem takeWhile_append_all {α} (p : α → Bool) {xs : List α} (ys : List α)
    (h : ∀ a ∈ xs, p a = true) :
    (xs ++ ys).takeWhile p = xs ++ ys.takeWhile p := by
  induction xs with
  | nil => simp
  | cons x xs ih =>
    have hx := h x (List.mem_cons_self x xs)
    simp [List.takeWhile_cons, hx, ih (fun a ha => h a (List.mem_cons_of_mem x ha))]

theorem dropWhile_append_all {α} (p : α → Bool) {xs : List α} (ys : List α)
    (h : ∀ a ∈ xs, p a = true) :
    (xs ++ ys).dropWhile p = ys.dropWhile p := by
  induction xs with
  | nil => simp
  | cons x xs ih =>
    have hx := h x (List.mem_cons_self x xs)
    simp [List.dropWhile_cons, hx, ih (fun a ha => h a (List.mem_cons_of_mem x ha))]

theorem takeWhile_all {α} (p : α → Bool) {xs : List α} (h : ∀ a ∈ xs, p a = true) :
    xs.takeWhile p = xs := by
  have := takeWhile_append_all p [] h
  simpa using this

theorem dropWhile_all {α} (p : α → Bool) {xs : List α} (h : ∀ a ∈ xs, p a = true) :
    xs.dropWhile p = [] := by
  have := dropWhile_append_all p [] h
  simpa using this

theorem takeWhile_head_neg {α} (p : α → Bool) {l : List α} {c : α}
    (hc : l.head? = some c) (hpc : p c = false) : l.takeWhile p = [] := by
  cases l with
  | nil => simp at hc
  | cons x xs =>
    simp only [List.head?_cons, Option.some.injEq] at hc
    subst hc
    simp [List.takeWhile_cons, hpc]

theorem dropWhile_head_neg {α} (p : α → Bool) {l : List α} {c : α}
    (hc : l.head? = some c) (hpc : p c = false) : l.dropWhile p = l := by
  cases l with
  | nil => simp at hc
  | cons x xs =>
    simp only [List.head?_cons, Option.some.injEq] at hc
    subst hc
    simp [List.dropWhile_cons, hpc]

theorem dropWhile_all_neg {α} (p : α → Bool) {l : List α}
    (h : ∀ a ∈ l, p a = false) : l.dropWhile p = l := by
  cases l with
  | nil => rfl
  | cons x xs => exact dropWhile_head_neg p (by simp) (h x (List.mem_cons_self x xs))

theorem head?_dropWhile {α} (p : α → Bool) {l : List α} {c : α}
    (hc : (l.dropWhile p).head? = some c) : p c = false := by
  induction l with
  | nil => simp at hc
  | cons x xs ih =>
    rw [List.dropWhile_cons] at hc
    by_cases hx : p x = true
    · exact ih (by simpa [hx] using hc)
    · rw [if_neg hx] at hc
      simp only [List.head?_cons, Option.some.injEq] at hc
      subst hc
      simpa using hx

theorem getLast?_of_suffix {α} {l1 l2 : List α} (h : l2 <:+ l1) (hne : l2 ≠ []) :
    l1.getLast? = l2.getLast? := by
  obtain ⟨t, rfl⟩ := h
  exact List.getLast?_append_of_ne_nil t hne

/-- Stripping a string that is whitespace, then a block with non-space
endpoints, then whitespace, yields the middle block. -/
theorem pyStrip_eq_of {lead mid trail : List Char}
    (hl : ∀ c ∈ lead, pyIsSpace c = true)
    (ht : ∀ c ∈ trail, pyIsSpace c = true)
    (hh : ∀ c, mid.head? = some c → pyIsSpace c = false)
    (hg : ∀ c, mid.getLast? = some c → pyIsSpace c = false)
    (hne : mid ≠ []) :
    pyStrip (lead ++ mid ++ trail) = mid := by
  obtain ⟨c0, hc0⟩ : ∃ c0, mid.head? = some c0 := by
    cases mid with
    | nil => exact absurd rfl hne
    | cons x xs => exact ⟨x, rfl⟩
  obtain ⟨c1, hc1⟩ : ∃ c1, mid.getLast? = some c1 := by
    cases hml : mid.getLast? with
    | none => exact absurd (List.getLast?_eq_none_iff.mp hml) hne
    | some x => exact ⟨x, rfl⟩
  have hmidtrail : (mid ++ trail).head? = some c0 := by
    cases mid with
    | nil => exact absurd rfl hne
    | cons x xs => simpa using hc0
  unfold pyStrip stripLeft
  rw [List.append_assoc, dropWhile_append_all _ _ hl,
    dropWhile_head_neg pyIsSpace hmidtrail (hh c0 hc0),
    List.reverse_append,
    dropWhile_append_all _ _ (fun c hc => ht c (List.mem_reverse.mp hc)),
    dropWhile_head_neg pyIsSpace (by rw [List.head?_reverse]; exact hc1) (hg c1 hc1),
    List.reverse_reverse]

/-- Stripping is the identity on a block with non-space endpoints. -/
theorem pyStrip_eq_self {l : List Char}
    (hh : ∀ c, l.head? = some c → pyIsSpace c = false)
    (hg : ∀ c, l.getLast? = some c → pyIsSpace c = false) :
    pyStrip l = l := by
  cases hl : l with
  | nil => rfl
  | cons x xs =>
    have := @pyStrip_eq_of [] l []
      (by simp) (by simp) hh hg (by rw [hl]; simp)
    simpa [hl] using this

/-- The last character of a stripped string is not whitespace. -/
theorem pyStrip_getLast_nonspace {l : List Char} {c : Char}
    (h : (pyStrip l).getLast? = some c) : pyIsSpace c = false := by
  unfold pyStrip at h
  rw [List.getLast?_reverse] at h
  exact head?_dropWhile pyIsSpace h

/-- Whitespace characters are not digits. -/
theorem space_not_digit {c : Char} (h : pyIsSpace c = true) : isDigitChar c = false := by
  simp only [pyIsSpace, Bool.or_eq_true, beq_iff_eq] at h
  rcases h with ((((rfl | rfl) | rfl) | rfl) | rfl) | rfl <;> decide

/-- Digit characters are not whitespace. -/
theorem digit_not_space {c : Char} (h : isDigitChar c = true) : pyIsSpace c = false := by
  cases hsp : pyIsSpace c with
  | false => rfl
  | true => rw [space_not_digit hsp] at h; exact absurd h (by simp)

/-- Whitespace characters are not decimal separators. -/
theorem space_not_sep {c : Char} (h : pyIsSpace c = true) :
    (c == '.') = false ∧ (c == ',') = false := by
  simp only [pyIsSpace, Bool.or_eq_true, beq_iff_eq] at h
  rcases h with ((((rfl | rfl) | rfl) | rfl) | rfl) | rfl <;> exact ⟨rfl, rfl⟩

/-- Digit characters are not commas. -/
theorem digit_ne_comma {c : Char} (h : isDigitChar c = true) : (c == ',') = false := by
  cases hc : (c == ',') with
  | false => rfl
  | true =>
    rw [beq_iff_eq] at hc
    subst hc
    exact absurd h (by decide)

/-- The regex match on a message in canonical decomposed form: integer
digits, an optional separator-plus-fraction, a whitespace run, then a
category that starts with a non-space character and contains no newline. -/
theorem matchExpense_canonical
    (intDs : List Char) (sf : Option (Char × List Char)) (ws cat : List Char)
    (hIntNe : intDs ≠ []) (hInt : ∀ c ∈ intDs, isDigitChar c = true)
    (hSep : ∀ c fr, sf = some (c, fr) →
      (c = '.' ∨ c = ',') ∧ fr ≠ [] ∧ ∀ d ∈ fr, isDigitChar d = true)
    (hWsNe : ws ≠ []) (hWs : ∀ c ∈ ws, pyIsSpace c = true)
    (hCatNe : cat ≠ []) (hCatH : ∀ c, cat.head? = some c → pyIsSpace c = false)
    (hCatNl : ∀ c ∈ cat, ¬ c = '\n') :
    matchExpense (intDs ++ sepPart sf ++ ws ++ cat) = some (intDs ++ sepPart sf, cat) := by
  obtain ⟨w0, ws', rfl⟩ : ∃ w0 ws', ws = w0 :: ws' := by
    cases ws with
    | nil => exact absurd rfl hWsNe
    | cons a b => exact ⟨a, b, rfl⟩
  have hw0 : pyIsSpace w0 = true := hWs w0 (List.mem_cons_self _ _)
  have hws' : ∀ c ∈ ws', pyIsSpace c = true := fun c hc => hWs c (List.mem_cons_of_mem _ hc)
  obtain ⟨k0, hk0⟩ : ∃ k0, cat.head? = some k0 := by
    cases cat with
    | nil => exact absurd rfl hCatNe
    | cons a b => exact ⟨a, rfl⟩
  have hk0s : pyIsSpace k0 = false := hCatH k0 hk0
  have hanyn : (cat.any fun c => c == '\n') = false := by
    simp only [List.any_eq_false, beq_iff_eq]
    exact hCatNl
  have hcatE : cat.isEmpty = false := by
    cases cat with
    | nil => exact absurd rfl hCatNe
    | cons a b => rfl
  have hie : intDs.isEmpty = false := by
    cases intDs with
    | nil => exact absurd rfl hIntNe
    | cons a b => rfl
  have h3 : (w0 :: (ws' ++ cat)).takeWhile pyIsSpace = w0 :: ws' := by
    rw [List.takeWhile_cons, if_pos hw0, takeWhile_append_all pyIsSpace cat hws',
      takeWhile_head_neg pyIsSpace hk0 hk0s, List.append_nil]
  have h4 : (w0 :: (ws' ++ cat)).dropWhile pyIsSpace = cat := by
    rw [List.dropWhile_cons, if_pos hw0, dropWhile_append_all pyIsSpace cat hws',
      dropWhile_head_neg pyIsSpace hk0 hk0s]
  cases sf with
  | none =>
    rw [show intDs ++ sepPart none ++ (w0 :: ws') ++ cat =
        intDs ++ (w0 :: (ws' ++ cat)) by simp [sepPart]]
    have h1 : (intDs ++ (w0 :: (ws' ++ cat))).takeWhile isDigitChar = intDs := by
      rw [takeWhile_append_all isDigitChar _ hInt,
        takeWhile_head_neg isDigitChar (l := w0 :: (ws' ++ cat)) (c := w0) rfl
          (space_not_digit hw0), List.append_nil]
    have h2 : (intDs ++ (w0 :: (ws' ++ cat))).dropWhile isDigitChar =
        w0 :: (ws' ++ cat) := by
      rw [dropWhile_append_all isDigitChar _ hInt,
        dropWhile_head_neg isDigitChar (l := w0 :: (ws' ++ cat)) (c := w0) rfl
          (space_not_digit hw0)]
    simp only [matchExpense, h1, h2, hie, Bool.false_eq_true, if_false,
      (space_not_sep hw0).1, (space_not_sep hw0).2, Bool.or_self, Bool.false_and,
      h3, h4, hcatE, hanyn, List.isEmpty_cons, sepPart, List.append_nil]
  | some p0 =>
    obtain ⟨sep, fr⟩ := p0
    obtain ⟨hsep1, hfrNe, hfr⟩ := hSep sep fr rfl
    have hsepd : isDigitChar sep = false := by
      rcases hsep1 with rfl | rfl <;> decide
    have hfrE : fr.isEmpty = false := by
      cases fr with
      | nil => exact absurd rfl hfrNe
      | cons a b => rfl
    have hsepT : (sep == '.' || sep == ',') = true := by
      rcases hsep1 with rfl | rfl <;> rfl
    rw [show intDs ++ sepPart (some (sep, fr)) ++ (w0 :: ws') ++ cat =
        intDs ++ (sep :: (fr ++ (w0 :: (ws' ++ cat)))) by simp [sepPart]]
    have h1 : (intDs ++ (sep :: (fr ++ (w0 :: (ws' ++ cat))))).takeWhile isDigitChar =
        intDs := by
      rw [takeWhile_append_all isDigitChar _ hInt,
        takeWhile_head_neg isDigitChar (l := sep :: (fr ++ (w0 :: (ws' ++ cat))))
          (c := sep) rfl hsepd, List.append_nil]
    have h2 : (intDs ++ (sep :: (fr ++ (w0 :: (ws' ++ cat))))).dropWhile isDigitChar =
        sep :: (fr ++ (w0 :: (ws' ++ cat))) := by
      rw [dropWhile_append_all isDigitChar _ hInt,
        dropWhile_head_neg isDigitChar (l := sep :: (fr ++ (w0 :: (ws' ++ cat))))
          (c := sep) rfl hsepd]
    have h5 : (fr ++ (w0 :: (ws' ++ cat))).takeWhile isDigitChar = fr := by
      rw [takeWhile_append_all isDigitChar _ hfr,
        takeWhile_head_neg isDigitChar (l := w0 :: (ws' ++ cat)) (c := w0) rfl
          (space_not_digit hw0), List.append_nil]
    have h6 : (fr ++ (w0 :: (ws' ++ cat))).dropWhile isDigitChar =
        w0 :: (ws' ++ cat) := by
      rw [dropWhile_append_all isDigitChar _ hfr,
        dropWhile_head_neg isDigitChar (l := w0 :: (ws' ++ cat)) (c := w0) rfl
          (space_not_digit hw0)]
    simp only [matchExpense, h1, h2, hie, Bool.false_eq_true, if_false,
      hsepT, h5, h6, hfrE, Bool.not_false, Bool.true_and, if_true,
      h3, h4, hcatE, hanyn, List.isEmpty_cons, sepPart]

/-- Digit characters are not signs. -/
theorem digit_ne_sign {c : Char} (h : isDigitChar c = true) :
    (c == '+') = false ∧ (c == '-') = false := by
  refine ⟨?_, ?_⟩ <;> (first
    | (cases hc : (c == '+') with
       | false => rfl
       | true => rw [beq_iff_eq] at hc; subst hc; exact absurd h (by decide))
    | (cases hc : (c == '-') with
       | false => rfl
       | true => rw [beq_iff_eq] at hc; subst hc; exact absurd h (by decide)))

/-- Comma-to-dot replacement fixes digit strings. -/
theorem replaceComma_digits {l : List Char} (h : ∀ c ∈ l, isDigitChar c = true) :
    replaceComma l = l := by
  unfold replaceComma
  rw [show l.map (fun c => if c == ',' then '.' else c) = l.map id from
    List.map_eq_map_iff.mpr (fun c hc => by simp [digit_ne_comma (h c hc)])]
  exact List.map_id l

/-- `float` of the matched amount string (after comma normalisation) is
exactly the decimal value of its digits. -/
theorem pyFloat_matched (intDs : List Char) (sf : Option (Char × List Char))
    (hIntNe : intDs ≠ []) (hInt : ∀ c ∈ intDs, isDigitChar c = true)
    (hSep : ∀ c fr, sf = some (c, fr) →
      (c = '.' ∨ c = ',') ∧ fr ≠ [] ∧ ∀ d ∈ fr, isDigitChar d = true) :
    pyFloat (replaceComma (intDs ++ sepPart sf)) =
      some (decimalValue intDs (fracOf sf)) := by
  obtain ⟨c0, intDs', rfl⟩ : ∃ c0 m, intDs = c0 :: m := by
    cases intDs with
    | nil => exact absurd rfl hIntNe
    | cons a b => exact ⟨a, b, rfl⟩
  have hc0 : isDigitChar c0 = true := hInt c0 (List.mem_cons_self _ _)
  have hint' : ∀ c ∈ intDs', isDigitChar c = true :=
    fun c hc => hInt c (List.mem_cons_of_mem _ hc)
  have hIE : (c0 :: intDs').isEmpty = false := rfl
  cases sf with
  | none =>
    rw [show sepPart none = [] from rfl, List.append_nil,
      replaceComma_digits hInt]
    have hstrip : pyStrip (c0 :: intDs') = c0 :: intDs' := by
      refine pyStrip_eq_self (fun c hc => ?_) (fun c hc => ?_)
      · simp only [List.head?_cons, Option.some.injEq] at hc
        subst hc
        exact digit_not_space hc0
      · exact digit_not_space (hInt c (List.mem_of_mem_getLast? hc))
    have htk : (c0 :: intDs').takeWhile isDigitChar = c0 :: intDs' :=
      takeWhile_all isDigitChar hInt
    have hdp : (c0 :: intDs').dropWhile isDigitChar = [] :=
      dropWhile_all isDigitChar hInt
    simp only [pyFloat, hstrip, pyFloatSigned, (digit_ne_sign hc0).1,
      (digit_ne_sign hc0).2, Bool.false_eq_true, if_false, pyFloatCore, htk, hdp,
      hIE, pyFloatExp, fracOf]
  | some p0 =>
    obtain ⟨sep, fr⟩ := p0
    obtain ⟨hsep1, hfrNe, hfr⟩ := hSep sep fr rfl
    have hrc : replaceComma ((c0 :: intDs') ++ sepPart (some (sep, fr))) =
        (c0 :: intDs') ++ '.' :: fr := by
      unfold replaceComma
      rw [List.map_append, ← replaceComma, replaceComma_digits hInt]
      congr 1
      show replaceComma (sep :: fr) = '.' :: fr
      unfold replaceComma
      rw [List.map_cons, ← replaceComma, replaceComma_digits hfr]
      congr 1
      rcases hsep1 with rfl | rfl <;> rfl
    rw [hrc]
    have hnos : ∀ c ∈ (c0 :: intDs') ++ '.' :: fr, pyIsSpace c = false := by
      intro c hc
      rcases List.mem_append.mp hc with hc | hc
      · exact digit_not_space (hInt c hc)
      · rcases List.mem_cons.mp hc with rfl | hc
        · rfl
        · exact digit_not_space (hfr c hc)
    have hstrip : pyStrip ((c0 :: intDs') ++ '.' :: fr) = (c0 :: intDs') ++ '.' :: fr := by
      refine pyStrip_eq_self (fun c hc => ?_) (fun c hc => ?_)
      · exact hnos c (List.mem_of_mem_head? hc)
      · exact hnos c (List.mem_of_mem_getLast? hc)
    have htk : ((c0 :: intDs') ++ '.' :: fr).takeWhile isDigitChar = c0 :: intDs' := by
      rw [takeWhile_append_all isDigitChar _ hInt,
        takeWhile_head_neg isDigitChar (l := '.' :: fr) (c := '.') rfl (by decide),
        List.append_nil]
    have hdp : ((c0 :: intDs') ++ '.' :: fr).dropWhile isDigitChar = '.' :: fr := by
      rw [dropWhile_append_all isDigitChar _ hInt,
        dropWhile_head_neg isDigitChar (l := '.' :: fr) (c := '.') rfl (by decide)]
    have htkf : fr.takeWhile isDigitChar = fr := takeWhile_all isDigitChar hfr
    have hdpf : fr.dropWhile isDigitChar = [] := dropWhile_all isDigitChar hfr
    have htk2 : (c0 :: (intDs' ++ '.' :: fr)).takeWhile isDigitChar = c0 :: intDs' := by
      rw [← List.cons_append]
      exact htk
    have hdp2 : (c0 :: (intDs' ++ '.' :: fr)).dropWhile isDigitChar = '.' :: fr := by
      rw [← List.cons_append]
      exact hdp
    have hstrip2 : pyStrip (c0 :: (intDs' ++ '.' :: fr)) = c0 :: (intDs' ++ '.' :: fr) := by
      rw [← List.cons_append]
      exact hstrip
    rw [List.cons_append]
    simp only [pyFloat, hstrip2, pyFloatSigned,
      (digit_ne_sign hc0).1, (digit_ne_sign hc0).2, Bool.false_eq_true, if_false,
      pyFloatCore, htk2, hdp2, htkf, hdpf, hIE,
      Bool.false_and, pyFloatExp, fracOf]

theorem toList_mk (l : List Char) : (String.mk l).toList = l := rfl

theorem isEmpty_false_of_ne_nil {α} {l : List α} (h : l ≠ []) : l.isEmpty = false := by
  cases l with
  | nil => exact absurd rfl h
  | cons a b => rfl

/-! ## Claim C1 -/

/-- C1: every input whose stripped form is integer digits, an optional
decimal separator with fraction digits, whitespace, then a trailing text
of at most 100 characters (no newline, non-space endpoints), with value
strictly positive and at most the 1,000,000 ceiling, parses successfully
to exactly that decimal value (comma normalised to dot) and exactly that
trailing text, with an empty error message.  The second conjunct states
the value in the spec's arithmetic form. -/
theorem C1_parse_success
    (lead intDs : List Char) (sf : Option (Char × List Char)) (ws cat trail : List Char)
    (hLead : ∀ c ∈ lead, pyIsSpace c = true)
    (hTrail : ∀ c ∈ trail, pyIsSpace c = true)
    (hIntNe : intDs ≠ []) (hInt : ∀ c ∈ intDs, isDigitChar c = true)
    (hSep : sepOk sf)
    (hWsNe : ws ≠ []) (hWs : ∀ c ∈ ws, pyIsSpace c = true)
    (hCatNe : cat ≠ [])
    (hCatH : ∀ c, cat.head? = some c → pyIsSpace c = false)
    (hCatL : ∀ c, cat.getLast? = some c → pyIsSpace c = false)
    (hCatNl : ∀ c ∈ cat, ¬ c = '\n')
    (hPos : 0 < decimalValue intDs (fracOf sf))
    (hCeil : decimalValue intDs (fracOf sf) ≤ 1000000)
    (hLen : cat.length ≤ 100) :
    parse_expense_message
        (String.mk (lead ++ (intDs ++ sepPart sf ++ ws ++ cat) ++ trail)) =
      ⟨some (decimalValue intDs (fracOf sf)), some (String.mk cat), ""⟩ ∧
    decimalValue intDs (fracOf sf) =
      (digitsVal intDs : ℚ) + (digitsVal (fracOf sf) : ℚ) / (10 : ℚ) ^ (fracOf sf).length := by
  refine ⟨?_, decimalValue_eq intDs (fracOf sf)⟩
  have hSep' : ∀ c fr, sf = some (c, fr) →
      (c = '.' ∨ c = ',') ∧ fr ≠ [] ∧ ∀ d ∈ fr, isDigitChar d = true := by
    intro c fr h
    rw [h] at hSep
    exact hSep
  obtain ⟨c0, intDs', rfl⟩ : ∃ c0 m, intDs = c0 :: m := by
    cases intDs with
    | nil => exact absurd rfl hIntNe
    | cons a b => exact ⟨a, b, rfl⟩
  have hmid_ne : (c0 :: intDs') ++ sepPart sf ++ ws ++ cat ≠ [] := by
    simp
  have hheadmid : ∀ c, ((c0 :: intDs') ++ sepPart sf ++ ws ++ cat).head? = some c →
      pyIsSpace c = false := by
    intro c hc
    simp only [List.cons_append, List.head?_cons, Option.some.injEq] at hc
    subst hc
    exact digit_not_space (hInt c0 (List.mem_cons_self _ _))
  have hlastmid : ∀ c, ((c0 :: intDs') ++ sepPart sf ++ ws ++ cat).getLast? = some c →
      pyIsSpace c = false := by
    intro c hc
    rw [List.getLast?_append_of_ne_nil _ hCatNe] at hc
    exact hCatL c hc
  have hstrip := pyStrip_eq_of hLead hTrail hheadmid hlastmid hmid_ne
  have hmatch := matchExpense_canonical (c0 :: intDs') sf ws cat hIntNe hInt hSep'
    hWsNe hWs hCatNe hCatH hCatNl
  have hfloat := pyFloat_matched (c0 :: intDs') sf hIntNe hInt hSep'
  simp only [parse_expense_message, toList_mk, hstrip,
    isEmpty_false_of_ne_nil hmid_ne, Bool.false_eq_true, if_false,
    hmatch, hfloat, pyStrip_eq_self hCatH hCatL, isEmpty_false_of_ne_nil hCatNe]
  rw [if_neg (not_le.mpr hPos), if_neg (not_lt.mpr hCeil), if_neg (not_lt.mpr hLen)]

/-- Common tail of the regex-match analysis: the whitespace-and-category
stage applied to a suffix `p2` of the input. -/
theorem match_tail_shape {p1 p2 s a c : List Char}
    (h : (if (p2.takeWhile pyIsSpace).isEmpty = true then none
          else if (p2.dropWhile pyIsSpace).isEmpty = true then none
          else if (p2.dropWhile pyIsSpace).any (fun ch => ch == '\n') = true then none
          else some (p1, p2.dropWhile pyIsSpace)) = some (a, c))
    (hsuf : p2 <:+ s) :
    c ≠ [] ∧ (∀ x, c.head? = some x → pyIsSpace x = false) ∧ c <:+ s := by
  by_cases h1 : (p2.takeWhile pyIsSpace).isEmpty = true
  · rw [if_pos h1] at h
    exact absurd h (by simp)
  · rw [if_neg h1] at h
    by_cases h2 : (p2.dropWhile pyIsSpace).isEmpty = true
    · rw [if_pos h2] at h
      exact absurd h (by simp)
    · rw [if_neg h2] at h
      by_cases h3 : ((p2.dropWhile pyIsSpace).any fun ch => ch == '\n') = true
      · rw [if_pos h3] at h
        exact absurd h (by simp)
      · rw [if_neg h3] at h
        simp only [Option.some.injEq, Prod.mk.injEq] at h
        obtain ⟨ha, hc⟩ := h
        subst hc
        refine ⟨?_, fun x hx => head?_dropWhile pyIsSpace hx,
          (List.dropWhile_suffix pyIsSpace).trans hsuf⟩
        intro he
        rw [he] at h2
        exact h2 rfl

/-- A successful regex match yields a non-empty category that starts with
a non-space character and is a suffix of the matched string. -/
theorem matchExpense_some_shape {s a c : List Char} (h : matchExpense s = some (a, c)) :
    c ≠ [] ∧ (∀ x, c.head? = some x → pyIsSpace x = false) ∧ c <:+ s := by
  unfold matchExpense at h
  by_cases h1 : (s.takeWhile isDigitChar).isEmpty = true
  · rw [if_pos h1] at h
    exact absurd h (by simp)
  · rw [if_neg h1] at h
    simp only [] at h
    have hr1suf : s.dropWhile isDigitChar <:+ s := List.dropWhile_suffix isDigitChar
    rcases hr : s.dropWhile isDigitChar with _ | ⟨ch, cs⟩ <;> rw [hr] at h <;>
      simp only [] at h
    · exact match_tail_shape h (by rw [← hr]; exact hr1suf)
    · by_cases hcond : ((ch == '.' || ch == ',') &&
          !(cs.takeWhile isDigitChar).isEmpty) = true
      · rw [if_pos hcond] at h
        simp only [] at h
        refine match_tail_shape h ?_
        calc cs.dropWhile isDigitChar <:+ cs := List.dropWhile_suffix isDigitChar
          _ <:+ ch :: cs := List.suffix_cons ch cs
          _ <:+ s := by rw [← hr]; exact hr1suf
      · rw [if_neg hcond] at h
        simp only [] at h
        refine match_tail_shape h ?_
        rw [← hr]
        exact hr1suf

/-! ## Claim C10 -/

/-- C10: `parse_expense_message` never reports the empty-category error:
the message is stripped before the anchored match, so any captured
category keeps a non-space first and last character and survives its own
trim. -/
theorem C10_missing_category_unreachable (s : String) :
    (parse_expense_message s).error ≠ missingCategoryMsg := by
  by_cases hm : (pyStrip s.toList).isEmpty = true
  · simp only [parse_expense_message, if_pos hm]
    decide
  · rcases hmt : matchExpense (pyStrip s.toList) with _ | ⟨a, c⟩
    · simp only [parse_expense_message, if_neg hm, hmt]
      decide
    · rcases hf : pyFloat (replaceComma a) with _ | v
      · simp only [parse_expense_message, if_neg hm, hmt, hf]
        decide
      · obtain ⟨hcne, hchead, hcsuf⟩ := matchExpense_some_shape hmt
        have hlast : ∀ x, c.getLast? = some x → pyIsSpace x = false := by
          intro x hx
          exact pyStrip_getLast_nonspace
            ((getLast?_of_suffix hcsuf hcne).trans hx)
        have hsc : pyStrip c = c := pyStrip_eq_self hchead hlast
        by_cases h0 : v ≤ 0
        · simp only [parse_expense_message, if_neg hm, hmt, hf, if_pos h0]
          decide
        · by_cases hC : v > 1000000
          · simp only [parse_expense_message, if_neg hm, hmt, hf, if_neg h0, if_pos hC]
            decide
          · by_cases hl : c.length > 100
            · simp only [parse_expense_message, if_neg hm, hmt, hf, if_neg h0,
                if_neg hC, hsc, isEmpty_false_of_ne_nil hcne, Bool.false_eq_true,
                if_false, if_pos hl]
              decide
            · simp only [parse_expense_message, if_neg hm, hmt, hf, if_neg h0,
                if_neg hC, hsc, isEmpty_false_of_ne_nil hcne, Bool.false_eq_true,
                if_false, if_neg hl]
              decide

/-! ## Claim C2 -/

/-- C2: every parse either succeeds with an empty error or fails with no
amount, no category and a non-empty error, and the error of a failure is
that of the first failing check in the fixed order of the source: empty
message, no regex match, non-numeric amount, non-positive amount, amount
over the 1,000,000 ceiling, empty trimmed category, over-long category. -/
theorem C2_failure_taxonomy (s : String) :
    ((∃ a c, parse_expense_message s = ⟨some a, some c, ""⟩) ∨
      ((parse_expense_message s).amount = none ∧
        (parse_expense_message s).category = none ∧
        (parse_expense_message s).error ≠ "")) ∧
    (pyStrip s.toList = [] → (parse_expense_message s).error = emptyMsg) ∧
    (pyStrip s.toList ≠ [] → matchExpense (pyStrip s.toList) = none →
      (parse_expense_message s).error = formatMsg) ∧
    (∀ a c, matchExpense (pyStrip s.toList) = some (a, c) →
      pyFloat (replaceComma a) = none →
      (parse_expense_message s).error = amountMsg) ∧
    (∀ a c v, matchExpense (pyStrip s.toList) = some (a, c) →
      pyFloat (replaceComma a) = some v → v ≤ 0 →
      (parse_expense_message s).error = nonPositiveMsg) ∧
    (∀ a c v, matchExpense (pyStrip s.toList) = some (a, c) →
      pyFloat (replaceComma a) = some v → 0 < v → 1000000 < v →
      (parse_expense_message s).error = tooHighMsg) ∧
    (∀ a c v, matchExpense (pyStrip s.toList) = some (a, c) →
      pyFloat (replaceComma a) = some v → 0 < v → v ≤ 1000000 →
      pyStrip c = [] →
      (parse_expense_message s).error = missingCategoryMsg) ∧
    (∀ a c v, matchExpense (pyStrip s.toList) = some (a, c) →
      pyFloat (replaceComma a) = some v → 0 < v → v ≤ 1000000 →
      pyStrip c ≠ [] → 100 < (pyStrip c).length →
      (parse_expense_message s).error = tooLongMsg) := by
  have hnil : ∀ a c, matchExpense (pyStrip s.toList) = some (a, c) →
      pyStrip s.toList ≠ [] := by
    intro a c hmt he
    rw [he] at hmt
    rw [show matchExpense [] = none from rfl] at hmt
    exact Option.noConfusion hmt
  refine ⟨?_, ?_, ?_, ?_, ?_, ?_, ?_, ?_⟩
  · -- success-or-failure dichotomy
    by_cases hm : (pyStrip s.toList).isEmpty = true
    · right
      simp only [parse_expense_message, if_pos hm]
      exact ⟨trivial, trivial, by decide⟩
    · rcases hmt : matchExpense (pyStrip s.toList) with _ | ⟨a, c⟩
      · right
        simp only [parse_expense_message, if_neg hm, hmt]
        exact ⟨trivial, trivial, by decide⟩
      · rcases hf : pyFloat (replaceComma a) with _ | v
        · right
          simp only [parse_expense_message, if_neg hm, hmt, hf]
          exact ⟨trivial, trivial, by decide⟩
        · by_cases h0 : v ≤ 0
          · right
            simp only [parse_expense_message, if_neg hm, hmt, hf, if_pos h0]
            exact ⟨trivial, trivial, by decide⟩
          · by_cases hC : v > 1000000
            · right
              simp only [parse_expense_message, if_neg hm, hmt, hf, if_neg h0,
                if_pos hC]
              exact ⟨trivial, trivial, by decide⟩
            · by_cases hce : (pyStrip c).isEmpty = true
              · right
                simp only [parse_expense_message, if_neg hm, hmt, hf, if_neg h0,
                  if_neg hC, if_pos hce]
                exact ⟨trivial, trivial, by decide⟩
              · by_cases hl : (pyStrip c).length > 100
                · right
                  simp only [parse_expense_message, if_neg hm, hmt, hf, if_neg h0,
                    if_neg hC, if_neg hce, if_pos hl]
                  exact ⟨trivial, trivial, by decide⟩
                · left
                  refine ⟨v, String.mk (pyStrip c), ?_⟩
                  simp only [parse_expense_message, if_neg hm, hmt, hf, if_neg h0,
                    if_neg hC, if_neg hce, if_neg hl]
  · intro he
    simp only [parse_expense_message, if_pos (by rw [he]; rfl : (pyStrip s.toList).isEmpty = true)]
  · intro hne hmt
    simp only [parse_expense_message, isEmpty_false_of_ne_nil hne,
      Bool.false_eq_true, if_false, hmt]
  · intro a c hmt hf
    simp only [parse_expense_message, isEmpty_false_of_ne_nil (hnil a c hmt),
      Bool.false_eq_true, if_false, hmt, hf]
  · intro a c v hmt hf h0
    simp only [parse_expense_message, isEmpty_false_of_ne_nil (hnil a c hmt),
      Bool.false_eq_true, if_false, hmt, hf, if_pos h0]
  · intro a c v hmt hf h0 hC
    simp only [parse_expense_message, isEmpty_false_of_ne_nil (hnil a c hmt),
      Bool.false_eq_true, if_false, hmt, hf, if_neg (not_le.mpr h0), if_pos hC]
  · intro a c v hmt hf h0 hC hce
    simp only [parse_expense_message, isEmpty_false_of_ne_nil (hnil a c hmt),
      Bool.false_eq_true, if_false, hmt, hf, if_neg (not_le.mpr h0),
      if_neg (not_lt.mpr hC), if_pos (by rw [hce]; rfl : (pyStrip c).isEmpty = true)]
  · intro a c v hmt hf h0 hC hce hl
    simp only [parse_expense_message, isEmpty_false_of_ne_nil (hnil a c hmt),
      Bool.false_eq_true, if_false, hmt, hf, if_neg (not_le.mpr h0),
      if_neg (not_lt.mpr hC), isEmpty_false_of_ne_nil hce, if_pos hl]

/-- C2 witness: the spec's examples `"food"` (format error) and
`"1000001.00 rent"` (amount-too-high error) instantiate C2. -/
theorem C2_witness :
    (parse_expense_message "food").error = formatMsg ∧
    (parse_expense_message "1000001.00 rent").error = tooHighMsg := by
  constructor
  · exact (C2_failure_taxonomy "food").2.2.1 (by decide) (by decide)
  · exact (C2_failure_taxonomy "1000001.00 rent").2.2.2.2.2.1
      ("1000001".toList ++ ['.'] ++ "00".toList) "rent".toList
      (decimalValue "1000001".toList "00".toList)
      (by decide) (by decide) (by decide) (by decide)

/-- C1 witness: the spec's example `"6.60 food"` instantiates C1. -/
theorem C1_witness :
    parse_expense_message
        (String.mk ([] ++ (['6'] ++ sepPart (some ('.', ['6', '0'])) ++ [' '] ++
          "food".toList) ++ [])) =
      ⟨some (decimalValue ['6'] (fracOf (some ('.', ['6', '0'])))),
        some (String.mk "food".toList), ""⟩ ∧
    decimalValue ['6'] (fracOf (some ('.', ['6', '0']))) =
      (digitsVal ['6'] : ℚ) + (digitsVal (fracOf (some ('.', ['6', '0']))) : ℚ) /
        (10 : ℚ) ^ (fracOf (some ('.', ['6', '0']))).length :=
  C1_parse_success [] ['6'] (some ('.', ['6', '0'])) [' '] "food".toList []
    (by decide) (by decide) (by decide) (by decide) (by decide) (by decide)
    (by decide) (by decide) (by decide) (by decide) (by decide) (by decide)
    (by decide) (by decide)

/-! ## Claim C3 -/

theorem foldl_qAdd_eq_sum (l : List ExpenseCategory) :
    l.foldl (fun a c => qAdd a c.total_amount) 0 =
      (l.map (fun c => c.total_amount)).sum := by
  suffices h : ∀ a : ℚ, l.foldl (fun a c => qAdd a c.total_amount) a =
      a + (l.map (fun c => c.total_amount)).sum by
    simpa using h 0
  induction l with
  | nil => intro a; simp
  | cons c l ih =>
    intro a
    rw [List.foldl_cons, ih, qAdd_eq_add]
    simp only [List.map_cons, List.sum_cons]
    ring

theorem foldl_count_eq_sum (l : List ExpenseCategory) :
    l.foldl (fun a c => a + c.count) 0 = (l.map (fun c => c.count)).sum := by
  suffices h : ∀ a : ℤ, l.foldl (fun a c => a + c.count) a =
      a + (l.map (fun c => c.count)).sum by
    simpa using h 0
  induction l with
  | nil => intro a; simp
  | cons c l ih =>
    intro a
    simp only [List.foldl_cons, ih, List.map_cons, List.sum_cons]
    ring

/-- C3: every `AnalysisResult` constructed by `analyze_expenses` satisfies
the totals invariant: `total_expenses` is the sum of the categories'
`total_amount` and `total_transactions` the sum of their `count`, for any
environment (hence any stage-1 output). -/
theorem C3_totals_invariant (env : AnalyzerEnv) (period : String) (r : AnalysisResult)
    (h : analyze_expenses env period = .ok r) :
    r.total_expenses = (r.categories.map (fun c => c.total_amount)).sum ∧
    r.total_transactions = (r.categories.map (fun c => c.count)).sum := by
  unfold analyze_expenses at h
  rcases hd : env.extractedData with e | rows <;> rw [hd] at h <;> simp only [] at h
  · exact Except.noConfusion h
  · by_cases hrows : rows.isEmpty = true
    · rw [if_pos hrows] at h
      exact Except.noConfusion h
    · rw [if_neg hrows] at h
      rcases hc : categorize_expenses_flow env with e | cats <;> rw [hc] at h <;>
        simp only [] at h
      · exact Except.noConfusion h
      · rcases hp : analyze_patterns_flow env.patternResponse cats with e | cats2 <;>
          rw [hp] at h <;> simp only [] at h
        · exact Except.noConfusion h
        · rcases hg : generate_insights_flow env with e | p <;> rw [hg] at h <;>
            simp only [] at h
          · exact Except.noConfusion h
          · have hr := (Except.ok.injEq _ _).mp h
            subst hr
            exact ⟨foldl_qAdd_eq_sum cats2, foldl_count_eq_sum cats2⟩

set_option maxRecDepth 100000 in
/-- C3 witness: a concrete successful two-category run instantiates C3. -/
theorem C3_witness :
    analyze_expenses envOk "monthly" = .ok resOk ∧
    (resOk.total_expenses = (resOk.categories.map (fun c => c.total_amount)).sum ∧
     resOk.total_transactions = (resOk.categories.map (fun c => c.count)).sum) :=
  ⟨rfl, C3_totals_invariant envOk "monthly" resOk rfl⟩

/-! ## Claim C4 -/

/-- C4: stage-1 response parsing takes the substring from the first
opening brace to the last closing brace; with no such brace pair it fails
with the no-structured-response error; with a brace-delimited substring
that is not valid JSON it fails with the malformed-response error; a
parsed category entry defaults each missing field; and the spec's §8
example (valid JSON wrapped in noise and a tail) yields exactly one
category "Food" with total 12.5 and count 1. -/
theorem C4_stage1_parsing :
    (∀ t i j, strFind t lbrace = some i → strRfind t rbrace = some j →
      extractJsonSubstring t = some (pySlice t i (j + 1))) ∧
    (∀ t : List Char, strFind t lbrace = none ∨ strRfind t rbrace = none →
      parse_categorization_response t = .error .noStructuredResponse) ∧
    (∀ t js, extractJsonSubstring t = some js → jsonParse js = none →
      parse_categorization_response t = .error .malformedResponse) ∧
    (∀ fields cat, parseCategoryEntry (.obj fields) = .ok cat →
      (objGetOpt fields "name" = none → cat.name = .str "Unknown") ∧
      (objGetOpt fields "total_amount" = none → cat.total_amount = 0) ∧
      (objGetOpt fields "count" = none → cat.count = 0) ∧
      (objGetOpt fields "descriptions" = none → cat.descriptions = .arr []) ∧
      (objGetOpt fields "patterns" = none → cat.patterns = .arr [])) ∧
    parse_categorization_response
        (("noise\x7b\"categories\":[\x7b\"name\":\"Food\",\"total_amount\":12.5," ++
          "\"count\":1,\"descriptions\":[\"coffee\"],\"patterns\":[]\x7d]\x7dtail").toList) =
      .ok [{ name := .str "Food", total_amount := Rat.divInt 25 2, count := 1,
             descriptions := .arr [.str "coffee"], patterns := .arr [] }] := by
  refine ⟨?_, ?_, ?_, ?_, by rfl⟩
  · intro t i j hi hj
    unfold extractJsonSubstring
    rw [hi, hj]
  · intro t h
    unfold parse_categorization_response extractJsonSubstring
    rcases h with h | h
    · rw [h]
    · rw [h]
      rcases hf : strFind t lbrace with _ | i <;> rfl
  · intro t js hx hp
    unfold parse_categorization_response
    rw [hx]
    simp only []
    rw [hp]
  · intro fields cat h
    unfold parseCategoryEntry at h
    simp only [] at h
    rcases hta : pyFloatOfJson (objGet fields "total_amount" (.num 0)) with _ | ta <;>
      rw [hta] at h
    · simp only [] at h
      exact Except.noConfusion h
    · rcases hcnt : pyIntOfJson (objGet fields "count" (.num 0)) with _ | cnt <;>
        rw [hcnt] at h <;> simp only [] at h
      · exact Except.noConfusion h
      · have hc := (Except.ok.injEq _ _).mp h
        subst hc
        refine ⟨?_, ?_, ?_, ?_, ?_⟩
        · intro hn
          simp [objGet, hn]
        · intro hn
          rw [show objGet fields "total_amount" (.num 0) = .num 0 by simp [objGet, hn]]
            at hta
          have : ta = 0 := by
            simpa [pyFloatOfJson] using hta.symm
          simp [this]
        · intro hn
          rw [show objGet fields "count" (.num 0) = .num 0 by simp [objGet, hn]] at hcnt
          have : cnt = 0 := by
            simpa [pyIntOfJson] using hcnt.symm
          simp [this]
        · intro hn
          simp [objGet, hn]
        · intro hn
          simp [objGet, hn]

/-- C4 witness: the failure branches at concrete responses with no brace
pair ("just text") and with a non-JSON brace pair, and the defaulting at
an entry with every field missing. -/
theorem C4_witness :
    parse_categorization_response "just text".toList = .error .noStructuredResponse ∧
    parse_categorization_response "x\x7bnot json\x7dy".toList =
      .error .malformedResponse ∧
    ∃ cat, parseCategoryEntry (.obj []) = .ok cat ∧ cat.name = .str "Unknown" ∧
      cat.total_amount = 0 ∧ cat.count = 0 ∧ cat.descriptions = .arr [] ∧
      cat.patterns = .arr [] := by
  refine ⟨C4_stage1_parsing.2.1 "just text".toList (.inl (by rfl)), ?_, ?_⟩
  · exact C4_stage1_parsing.2.2.1 "x\x7bnot json\x7dy".toList
      "\x7bnot json\x7d".toList (by rfl) (by rfl)
  · refine ⟨⟨.str "Unknown", 0, 0, .arr [], .arr []⟩, by rfl, ?_⟩
    have h := C4_stage1_parsing.2.2.2.1 [] _ (by rfl)
    exact ⟨h.1 rfl, h.2.1 rfl, h.2.2.1 rfl, h.2.2.2.1 rfl, h.2.2.2.2 rfl⟩

/-! ## Claim C5 -/

/-- C5: a model response with no parseable embedded JSON degrades locally
to empty lists: the pattern extractor and the insights parser return
empty lists rather than raising; in a two-category stage-2 run where
exactly one category got non-JSON text, only that category's patterns
are empty while the other keeps the patterns parsed from its own
response; and an insights-stage parse failure leaves the completed
analysis with empty insights and recommendations. -/
theorem C5_localized_degradation :
    (∀ t, nonJsonResponse t → extract_patterns_from_response t = .arr []) ∧
    (∀ t, nonJsonResponse t → parse_insights_response t = (.arr [], .arr [])) ∧
    (∀ (c1 c2 : ExpenseCategory) (resp : ExpenseCategory → Except String (List Char))
      (t1 t2 : List Char),
      1 < c1.count → 1 < c2.count →
      resp c1 = .ok t1 → resp c2 = .ok t2 → nonJsonResponse t1 →
      analyze_patterns_flow resp [c1, c2] =
        .ok [{ c1 with patterns := .arr [] },
             { c2 with patterns := extract_patterns_from_response t2 }]) ∧
    (∀ env period r t, analyze_expenses env period = .ok r →
      env.insightsResponse = .ok t → nonJsonResponse t →
      r.insights = .arr [] ∧ r.recommendations = .arr []) := by
  have key1 : ∀ t, nonJsonResponse t → extract_patterns_from_response t = .arr [] := by
    intro t hnj
    unfold nonJsonResponse at hnj
    unfold extract_patterns_from_response
    rcases hx : extractJsonSubstring t with _ | js
    · rfl
    · rw [hx] at hnj
      simp only [] at hnj
      simp only []
      rw [hnj]
  have key2 : ∀ t, nonJsonResponse t → parse_insights_response t = (.arr [], .arr []) := by
    intro t hnj
    unfold nonJsonResponse at hnj
    unfold parse_insights_response
    rcases hx : extractJsonSubstring t with _ | js
    · rfl
    · rw [hx] at hnj
      simp only [] at hnj
      simp only []
      rw [hnj]
  refine ⟨key1, key2, ?_, ?_⟩
  · intro c1 c2 resp t1 t2 hc1 hc2 hr1 hr2 hnj
    simp only [analyze_patterns_flow, analyze_patterns_flow_aux, if_pos hc1,
      if_pos hc2, hr1, hr2, Except.map, key1 t1 hnj]
  · intro env period r t h hins hnj
    have hgen : generate_insights_flow env = .ok ((.arr [], .arr []) : JsonV × JsonV) := by
      unfold generate_insights_flow
      rw [hins]
      simp only []
      rw [key2 t hnj]
    unfold analyze_expenses at h
    rcases hd : env.extractedData with e | rows <;> rw [hd] at h <;> simp only [] at h
    · exact Except.noConfusion h
    · by_cases hrows : rows.isEmpty = true
      · rw [if_pos hrows] at h
        exact Except.noConfusion h
      · rw [if_neg hrows] at h
        rcases hc : categorize_expenses_flow env with e | cats <;> rw [hc] at h <;>
          simp only [] at h
        · exact Except.noConfusion h
        · rcases hp : analyze_patterns_flow env.patternResponse cats with e | cats2 <;>
            rw [hp] at h <;> simp only [] at h
          · exact Except.noConfusion h
          · rw [hgen] at h
            simp only [] at h
            have hr := (Except.ok.injEq _ _).mp h
            subst hr
            exact ⟨rfl, rfl⟩

set_option maxRecDepth 100000 in
/-- C5 witness: a two-category run where only the first category's
response is non-JSON, and the `envInsightsFail` pipeline completing with
empty insights. -/
theorem C5_witness :
    analyze_patterns_flow
        (fun c => if c.count == 2 then .ok "garbage".toList else .ok goodPatternResp)
        [catTwo, catThree] =
      .ok [{ catTwo with patterns := .arr [] },
           { catThree with patterns :=
              extract_patterns_from_response goodPatternResp }] ∧
    (resInsightsFail.insights = .arr [] ∧ resInsightsFail.recommendations = .arr []) := by
  constructor
  · exact C5_localized_degradation.2.2.1 catTwo catThree
      (fun c => if c.count == 2 then .ok "garbage".toList else .ok goodPatternResp)
      "garbage".toList goodPatternResp (by decide) (by decide) (by rfl) (by rfl)
      (by exact trivial)
  · exact C5_localized_degradation.2.2.2 envInsightsFail "monthly" resInsightsFail
      "no structured text".toList (by rfl) (by rfl) (by exact trivial)

/-! ## Claim C6 -/

/-- C6 counterexample: a category whose stage-1 entry carried `count = 1`
and a non-empty `patterns` list passes through the pattern stage
unchanged, so after the stage a count-at-most-one category can have a
non-empty patterns list, contradicting the claim as stated. -/
theorem C6_counterexample :
    analyze_patterns_flow (fun _ => .ok []) [catC6] = .ok [catC6] ∧
    catC6.count ≤ 1 ∧ catC6.patterns ≠ .arr [] := by
  refine ⟨rfl, by decide, fun h => ?_⟩
  injection h with h1
  exact List.noConfusion h1

/-- C6 amended: the pattern stage issues a model call exactly for the
categories with more than one transaction; a successful stage maps each
count-at-most-one category through unchanged (keeping its stage-1
patterns, which are empty whenever the stage-1 entry omitted or emptied
the field) and replaces the patterns of each count-above-one category
with the parse of its own model response. -/
theorem C6_amended (resp : ExpenseCategory → Except String (List Char))
    (cats out calls : List ExpenseCategory)
    (h : analyze_patterns_flow_aux resp cats = .ok (out, calls)) :
    calls = cats.filter (fun c => 1 < c.count) ∧
    out.length = cats.length ∧
    ∀ i (hi : i < cats.length) (hi2 : i < out.length),
      ((cats.get ⟨i, hi⟩).count ≤ 1 → out.get ⟨i, hi2⟩ = cats.get ⟨i, hi⟩) ∧
      (1 < (cats.get ⟨i, hi⟩).count → ∃ text, resp (cats.get ⟨i, hi⟩) = .ok text ∧
        out.get ⟨i, hi2⟩ =
          { cats.get ⟨i, hi⟩ with patterns := extract_patterns_from_response text }) := by
  induction cats generalizing out calls with
  | nil =>
    unfold analyze_patterns_flow_aux at h
    have hp := (Except.ok.injEq _ _).mp h
    obtain ⟨h1, h2⟩ := Prod.mk.injEq .. |>.mp hp
    subst h1
    subst h2
    refine ⟨rfl, rfl, ?_⟩
    intro i hi
    exact absurd hi (by simp)
  | cons c rest ih =>
    unfold analyze_patterns_flow_aux at h
    by_cases hc : c.count > 1
    · rw [if_pos hc] at h
      rcases hr : resp c with e | text <;> rw [hr] at h <;> simp only [] at h
      · exact Except.noConfusion h
      · rcases ha : analyze_patterns_flow_aux resp rest with e | pr <;> rw [ha] at h <;>
          simp only [] at h
        · exact Except.noConfusion h
        · obtain ⟨outR, callsR⟩ := pr
          have hp := (Except.ok.injEq _ _).mp h
          obtain ⟨h1, h2⟩ := Prod.mk.injEq .. |>.mp hp
          subst h1
          subst h2
          obtain ⟨hcalls, hlen, hidx⟩ := ih outR callsR ha
          refine ⟨by simp [List.filter_cons, hc, hcalls], by simp [hlen], ?_⟩
          intro i hi hi2
          cases i with
          | zero =>
            refine ⟨fun hle => ?_, fun _ => ⟨text, hr, rfl⟩⟩
            have hle2 : c.count ≤ 1 := hle
            exact absurd hc (not_lt.mpr hle2)
          | succ n =>
            exact hidx n (by simpa using hi) (by simpa using hi2)
    · rw [if_neg hc] at h
      rcases ha : analyze_patterns_flow_aux resp rest with e | pr <;> rw [ha] at h <;>
        simp only [] at h
      · exact Except.noConfusion h
      · obtain ⟨outR, callsR⟩ := pr
        have hp := (Except.ok.injEq _ _).mp h
        obtain ⟨h1, h2⟩ := Prod.mk.injEq .. |>.mp hp
        subst h1
        subst h2
        obtain ⟨hcalls, hlen, hidx⟩ := ih outR callsR ha
        refine ⟨by simp [List.filter_cons, hc, hcalls], by simp [hlen], ?_⟩
        intro i hi hi2
        cases i with
        | zero =>
          exact ⟨fun _ => rfl, fun hgt => absurd hgt hc⟩
        | succ n =>
          exact hidx n (by simpa using hi) (by simpa using hi2)

/-- C6 witness: the amended statement at a concrete run with one
single-transaction and one two-transaction category. -/
theorem C6_witness :
    [catTwo] = [catC6, catTwo].filter (fun c => 1 < c.count) ∧
    ([catC6, { catTwo with patterns := .arr [.str "often"] }].length =
      [catC6, catTwo].length) := by
  have h := C6_amended (fun _ => .ok goodPatternResp) [catC6, catTwo]
    [catC6, { catTwo with patterns := .arr [.str "often"] }] [catTwo] (by rfl)
  exact ⟨h.1, h.2.1⟩

/-! ## Claim C7 -/

/-- C7: a 200 response whose decoded body has truthy `success` and a
numeric `runningTotal` of `t` makes `log_expense` return success with
running total exactly `t` — the backend-supplied value, so when the
backend echoes `previous + A` the returned total increases by exactly
`A`. -/
theorem C7_running_total_passthrough (amount : ℚ) (category : String) (body : String)
    (fields : List (String × JsonV)) (t : ℚ)
    (hparse : jsonParse body.toList = some (.obj fields))
    (hsucc : pyTruthy (objGetOpt fields "success") = true)
    (htot : objGetOpt fields "runningTotal" = some (.num t)) :
    (log_expense amount category (.resp 200 body)).success = true ∧
    (log_expense amount category (.resp 200 body)).running_total = .num t ∧
    (∀ p a : ℚ, t = p + a →
      (log_expense amount category (.resp 200 body)).running_total = .num (p + a)) := by
  have hle : log_expense amount category (.resp 200 body) =
      { success := true,
        message := objGet fields "message" (.str "Expense logged successfully"),
        running_total := objGet fields "runningTotal" (.num 0) } := by
    unfold log_expense
    simp only []
    rw [if_pos (show ((200 : Nat) == 200) = true from rfl)]
    rw [hparse]
    simp only []
    rw [if_pos hsucc]
  rw [hle]
  refine ⟨rfl, ?_, ?_⟩
  · simp [objGet, htot]
  · intro p a hpa
    simp [objGet, htot, hpa]

theorem fifteen_halves_eq : Rat.divInt 15 2 = (5 : ℚ) + Rat.divInt 5 2 := by
  rw [Rat.divInt_eq_div, Rat.divInt_eq_div]
  norm_num

/-- C7 witness: a concrete echoed body with running total 7.5 = 5 + 2.5. -/
theorem C7_witness :
    (log_expense 1 "food" (.resp 200 c7body)).success = true ∧
    (log_expense 1 "food" (.resp 200 c7body)).running_total = .num (Rat.divInt 15 2) ∧
    (log_expense 1 "food" (.resp 200 c7body)).running_total =
      .num ((5 : ℚ) + Rat.divInt 5 2) := by
  have h := C7_running_total_passthrough 1 "food" c7body
    [("success", .bool true), ("runningTotal", .num (Rat.divInt 15 2)),
     ("message", .str "ok")]
    (Rat.divInt 15 2) (by rfl) (by rfl) (by rfl)
  exact ⟨h.1, h.2.1, h.2.2 5 (Rat.divInt 5 2) fifteen_halves_eq⟩

/-! ## Claim C8 -/

/-- C8 counterexample: the claim's "three message shapes pairwise
distinct" fails for `call_apps_script_function`, whose application-level
failure returns the backend dict verbatim: a backend that echoes the
client's own network-failure text produces a result identical to a real
network failure. -/
theorem C8_counterexample :
    call_apps_script_function "getMonthlyStats" [] (.resp 200 c8body) =
      call_apps_script_function "getMonthlyStats" [] (.exc "boom") := by
  rfl

theorem head?_of_string_append {p : String} (s : String) {c : Char}
    (hp : p.toList.head? = some c) : (p ++ s).toList.head? = some c := by
  have : (p ++ s).toList = p.toList ++ s.toList := rfl
  rw [this]
  cases hl : p.toList with
  | nil => rw [hl] at hp; exact Option.noConfusion hp
  | cons x xs =>
    rw [hl] at hp
    simpa using hp

/-- C8 amended: in `log_expense` the three failure layers yield success
`false` with messages of three distinct shapes (network, HTTP with
status code, backend error text surfaced); in
`call_apps_script_function` the two client-generated failure dicts have
the same distinct shapes but the application-level failure is the
backend's decoded dict returned verbatim, which can coincide with a
client-generated shape. -/
theorem C8_failure_layers :
    (∀ (amt : ℚ) (cat e : String), log_expense amt cat (.exc e) =
      { success := false, message := .str ("Request failed: " ++ e),
        running_total := .num 0 }) ∧
    (∀ (amt : ℚ) (cat : String) (status : Nat) (body : String), status ≠ 200 →
      log_expense amt cat (.resp status body) =
        { success := false, message := .str ("HTTP error " ++ toString status),
          running_total := .num 0 }) ∧
    (∀ (amt : ℚ) (cat body : String) fields,
      jsonParse body.toList = some (.obj fields) →
      pyTruthy (objGetOpt fields "success") = false →
      log_expense amt cat (.resp 200 body) =
        { success := false,
          message := .str ("Apps Script error: " ++
            pyStrOfJson (objGet fields "error" (.str "Unknown error"))),
          running_total := .num 0 }) ∧
    (∀ (e : String) (status : Nat) (errtext : String),
      ("Request failed: " ++ e) ≠ ("HTTP error " ++ toString status) ∧
      ("Request failed: " ++ e) ≠ ("Apps Script error: " ++ errtext) ∧
      ("HTTP error " ++ toString status) ≠ ("Apps Script error: " ++ errtext)) ∧
    (∀ (fn : String) (params : List (String × JsonV)) (e : String),
      call_apps_script_function fn params (.exc e) =
        .obj [("success", .bool false), ("message", .str ("Request failed: " ++ e))]) ∧
    (∀ (fn : String) (params : List (String × JsonV)) (status : Nat) (body : String),
      status ≠ 200 →
      call_apps_script_function fn params (.resp status body) =
        .obj [("success", .bool false),
              ("message", .str ("HTTP error " ++ toString status))]) ∧
    (∀ (fn : String) (params : List (String × JsonV)) (body : String) fields,
      jsonParse body.toList = some (.obj fields) →
      call_apps_script_function fn params (.resp 200 body) = .obj fields) := by
  have hne : ∀ (p1 p2 s1 s2 : String) (c1 c2 : Char), p1.toList.head? = some c1 →
      p2.toList.head? = some c2 → c1 ≠ c2 → (p1 ++ s1) ≠ (p2 ++ s2) := by
    intro p1 p2 s1 s2 c1 c2 h1 h2 hcc heq
    have := congrArg (fun s : String => s.toList.head?) heq
    simp only [] at this
    rw [head?_of_string_append s1 h1, head?_of_string_append s2 h2] at this
    exact hcc (Option.some.injEq .. |>.mp this)
  refine ⟨fun amt cat e => rfl, ?_, ?_, ?_, fun fn params e => rfl, ?_, ?_⟩
  · intro amt cat status body hs
    unfold log_expense
    simp only []
    rw [if_neg (by simpa using hs)]
  · intro amt cat body fields hparse hsucc
    unfold log_expense
    simp only []
    rw [if_pos (show ((200 : Nat) == 200) = true from rfl)]
    rw [hparse]
    simp only []
    rw [if_neg (by simp [hsucc])]
  · intro e status errtext
    exact ⟨hne _ _ _ _ 'R' 'H' rfl rfl (by decide),
      hne _ _ _ _ 'R' 'A' rfl rfl (by decide),
      hne _ _ _ _ 'H' 'A' rfl rfl (by decide)⟩
  · intro fn params status body hs
    unfold call_apps_script_function
    simp only []
    rw [if_neg (by simpa using hs)]
  · intro fn params body fields hparse
    unfold call_apps_script_function
    simp only []
    rw [if_pos (show ((200 : Nat) == 200) = true from rfl)]
    rw [hparse]

/-- C8 witness: the HTTP and application layers at concrete inputs. -/
theorem C8_witness :
    log_expense 1 "food" (.resp 500 "oops") =
      { success := false, message := .str ("HTTP error " ++ toString (500 : Nat)),
        running_total := .num 0 } ∧
    log_expense 1 "food" (.resp 200 "\x7b\"success\":false,\"error\":\"bad action\"\x7d") =
      { success := false, message := .str ("Apps Script error: " ++ "bad action"),
        running_total := .num 0 } := by
  constructor
  · exact C8_failure_layers.2.1 1 "food" 500 "oops" (by decide)
  · exact C8_failure_layers.2.2.1 1 "food"
      "\x7b\"success\":false,\"error\":\"bad action\"\x7d"
      [("success", .bool false), ("error", .str "bad action")] (by rfl) (by rfl)

/-! ## Claim C9 -/

/-- C9 counterexample: `analyze_expenses` does not convert failures into
a returned outcome — its handler logs and re-raises, so a data-extraction
failure propagates as an exception (modelled as `.error`) out of the
operation. -/
theorem C9_counterexample :
    analyze_expenses envDataFail "monthly" = .error (.dataError "boom") := by
  rfl

/-- C9 amended: the expense-logging operations and named webhook calls
return success/failure outcomes as normal values for every service
behaviour — the facade converts every client failure into a failure
tuple, and even an internal formatting exception on a non-numeric
backend total is caught and returned as a failure tuple — while
`analyze_expenses` propagates stage failures as exceptions to its
caller. -/
theorem C9_no_exception_escape :
    (∀ (amt : ℚ) (cat : String) (outcome : HttpOutcome),
      (log_expense amt cat outcome).success = false →
      sheet_log_expense amt cat outcome =
        (false, "Failed to log expense: " ++
          pyStrOfJson (log_expense amt cat outcome).message, .num 0)) ∧
    (∀ (amt : ℚ) (cat : String) (outcome : HttpOutcome),
      (log_expense amt cat outcome).success = true →
      (∃ ts, format2f (log_expense amt cat outcome).running_total = some ts ∧
        sheet_log_expense amt cat outcome =
          (true, "Logged $" ++ fmtRat2 amt ++ " for " ++ cat ++
            ". Running total: $" ++ ts, (log_expense amt cat outcome).running_total)) ∨
      (format2f (log_expense amt cat outcome).running_total = none ∧
        sheet_log_expense amt cat outcome =
          (false, "Error logging expense: unsupported format string", .num 0))) := by
  constructor
  · intro amt cat outcome hf
    unfold sheet_log_expense
    simp only []
    rw [hf]
    simp only [Bool.false_eq_true, if_false]
  · intro amt cat outcome ht
    unfold sheet_log_expense
    simp only []
    rw [ht]
    simp only [if_true]
    rcases hfmt : format2f (log_expense amt cat outcome).running_total with _ | ts
    · right
      exact ⟨rfl, rfl⟩
    · left
      exact ⟨ts, rfl, rfl⟩

/-- C9 witness: a network failure returns the failure tuple, and a
success with a non-numeric backend total returns the caught-exception
failure tuple rather than raising. -/
theorem C9_witness :
    sheet_log_expense 1 "food" (.exc "refused") =
      (false, "Failed to log expense: " ++
        pyStrOfJson (log_expense 1 "food" (.exc "refused")).message, .num 0) ∧
    sheet_log_expense 1 "food"
        (.resp 200 "\x7b\"success\":true,\"runningTotal\":\"NaN\"\x7d") =
      (false, "Error logging expense: unsupported format string", .num 0) := by
  constructor
  · exact C9_no_exception_escape.1 1 "food" (.exc "refused") (by rfl)
  · have h := C9_no_exception_escape.2 1 "food"
      (.resp 200 "\x7b\"success\":true,\"runningTotal\":\"NaN\"\x7d") (by rfl)
    rcases h with ⟨ts, hts, _⟩ | ⟨_, h2⟩
    · rw [show format2f (log_expense 1 "food"
        (.resp 200 "\x7b\"success\":true,\"runningTotal\":\"NaN\"\x7d")).running_total =
          none from rfl] at hts
      exact Option.noConfusion hts
    · exact h2

end ExpenseTracker
